import Mathlib

/-!
# Static map handler of mbtileserver (`handlers/staticmap.go`)

A shallow embedding of the tile fetch adapter `LocalDBTileFetcher.Fetch` and of the
request handler `ServiceSet.staticmap`, followed by the properties proved about them.

Conventions of the embedding:
* a Go `int` is a Lean `Int` in the range of a 64-bit signed word; arithmetic that can
  leave the range is wrapped explicitly (`wrapInt64`), conversions to unsigned types are
  explicit remainders (`toUint8`, `toUint64`);
* a Go `string` is the list of its bytes, each byte carried by one `Char`;
* the collaborators that live outside the file (tile store, rendering engine, standard
  library parsers, not-found responder) are parameters;
* calls to collaborators are recorded, in order, in a trace of events.
-/

namespace Staticmap

deriving instance DecidableEq for Except

/-! ## Machine integers -/

/-- Values representable by a Go `int` on a 64-bit platform. -/
def IsInt64 (n : Int) : Prop := -(2 : Int) ^ 63 ≤ n ∧ n < (2 : Int) ^ 63

instance (n : Int) : Decidable (IsInt64 n) := by unfold IsInt64; exact inferInstance

/-- Two's complement wrap-around of an integer result into the 64-bit signed range. -/
def wrapInt64 (n : Int) : Int := (n + 2 ^ 63) % 2 ^ 64 - 2 ^ 63

/-- Conversion `uint64(n)` of a Go `int`. -/
def toUint64 (n : Int) : Nat := (n % 2 ^ 64).toNat

/-- Conversion `uint8(n)` of a Go `int`. -/
def toUint8 (n : Int) : Nat := (n % 2 ^ 8).toNat

/-- The Go expression `1 << uint64(z)` at type `int`: the shift count is the unsigned
conversion of `z`; a count of 64 or more shifts the only set bit out of the word. -/
def shiftOne (z : Int) : Int :=
  if toUint64 z < 64 then wrapInt64 (2 ^ toUint64 z) else 0

/-- Row flip of `Fetch` (line 38): `y = (1 << uint64(z)) - 1 - y`. -/
def flipY (z y : Int) : Int := wrapInt64 (wrapInt64 (shiftOne z - 1) - y)

/-! ## Tile fetch adapter -/

/-- Raw tile payload. -/
abbrev Bytes := List UInt8

/-- Coordinate handed to the tile store: `(uint8 zoom, uint64 column, uint64 row)`. -/
structure StoreKey where
  zoom : Nat
  column : Nat
  row : Nat
deriving DecidableEq, Repr

/-- Outcome of `db.ReadTile(z, x, y, &data)`: the value left in `data` (`none` is a nil
slice) and the returned error (`none` is a nil error). -/
structure ReadResult (Err : Type) where
  data : Option Bytes
  err : Option Err
deriving DecidableEq

/-- The errors `Fetch` can return. The coordinates are the ones formatted into the
message: the zoom, the column, and the row after the flip. -/
inductive FetchError (Err DecErr : Type) where
  /-- Line 43: "cannot fetch tile from DB for z=.., x=.., y=..: cause". -/
  | cannotFetch (z x y : Int) (cause : Err)
  /-- Line 48: "Tile not found from DB for z=.., x=.., y=..". -/
  | tileNotFound (z x y : Int)
  /-- Line 54: the error of `image.Decode`, returned as is. -/
  | decode (cause : DecErr)
deriving DecidableEq, Repr

/-- What `Fetch` does after the store read (lines 41 to 57). -/
def fetchResult {Err DecErr Image : Type} (Decode : Bytes → Except DecErr Image)
    (z x y : Int) (rd : ReadResult Err) : Except (FetchError Err DecErr) Image :=
  match rd.err with
  | some e => .error (.cannotFetch z x y e)
  | none =>
    match rd.data with
    | none => .error (.tileNotFound z x y)
    | some data =>
      if data.length ≤ 1 then .error (.tileNotFound z x y)
      else
        match Decode data with
        | .error e => .error (.decode e)
        | .ok img => .ok img

/-- Outcome of one `Fetch`: the store reads it issued, in order, and its return value. -/
structure FetchOutcome (Err DecErr Image : Type) where
  reads : List StoreKey
  result : Except (FetchError Err DecErr) Image

/-- The method `LocalDBTileFetcher.Fetch(z, x, y)` (lines 35 to 58). -/
def Fetch {Err DecErr Image : Type} (ReadTile : StoreKey → ReadResult Err)
    (Decode : Bytes → Except DecErr Image) (z x y : Int) : FetchOutcome Err DecErr Image :=
  let y1 := flipY z y
  let key : StoreKey := ⟨toUint8 z, toUint64 x, toUint64 y1⟩
  { reads := [key], result := fetchResult Decode z x y1 (ReadTile key) }

/-! ## Request handler: data -/

/-- A Go string, as the list of its bytes. -/
abbrev GoString := List Char

/-- Types of the values exchanged with the collaborators: `float64`, with its zero value,
the colour and overlay path types of the rendering engine, `image.Image`, `error`, and the
error of the image decoder. -/
structure Lib where
  Float : Type
  zero : Float
  Color : Type
  Path : Type
  Image : Type
  Err : Type
  DecErr : Type

/-- The geographic point `s2.LatLng`, kept in degrees. -/
structure LatLng (F : Type) where
  lat : F
  lng : F
deriving DecidableEq, Repr

/-- The library constructor `s2.LatLngFromDegrees(lat, lng float64)`: the first argument is
the latitude, the second the longitude. -/
def LatLngFromDegrees {F : Type} (lat lng : F) : LatLng F := { lat := lat, lng := lng }

/-- Modelled from the spec: the tile format enumeration of the tile store package (its
declaration is not part of the handler file); `PBF` is the compressed vector format. -/
inductive TileFormat where
  | UNKNOWN | GZIP | ZLIB | PNG | JPG | PBF | WEBP
deriving DecidableEq, Repr

/-- The fetch capability installed in a render context. -/
abbrev TileFetcher (L : Lib) := Int → Int → Int → FetchOutcome L.Err L.DecErr L.Image

/-- The fields of the render context `sm.Context` that the handler sets. -/
structure Context (L : Lib) where
  width : Int
  height : Int
  zoom : Option Int
  center : Option (LatLng L.Float)
  background : Option L.Color
  paths : List L.Path
  tileFetcher : Option (TileFetcher L)

namespace Context

variable {L : Lib}

/-- The setter `ctx.SetTileFetcher`. -/
def SetTileFetcher (ctx : Context L) (f : TileFetcher L) : Context L :=
  { ctx with tileFetcher := some f }

/-- The setter `ctx.SetSize`. -/
def SetSize (ctx : Context L) (w h : Int) : Context L := { ctx with width := w, height := h }

/-- The setter `ctx.SetZoom`. -/
def SetZoom (ctx : Context L) (z : Int) : Context L := { ctx with zoom := some z }

/-- The setter `ctx.SetCenter`. -/
def SetCenter (ctx : Context L) (c : LatLng L.Float) : Context L := { ctx with center := some c }

/-- The setter `ctx.SetBackground`. -/
def SetBackground (ctx : Context L) (c : L.Color) : Context L := { ctx with background := some c }

/-- The method `ctx.AddPath`, which appends to the overlay paths. -/
def AddPath (ctx : Context L) (p : L.Path) : Context L := { ctx with paths := ctx.paths ++ [p] }

end Context

/-- The messages passed to `log.Printf`. -/
inductive LogMsg (L : Lib) where
  | useDefaultWidth
  | cannotParseWidth (raw : GoString) (cause : L.Err)
  | useDefaultHeight
  | cannotParseHeight (raw : GoString) (cause : L.Err)
  | cannotParseX (raw : GoString) (cause : L.Err)
  | cannotParseY (raw : GoString) (cause : L.Err)

/-- One observable step of the handler: a call to a collaborator. -/
inductive Event (L : Lib) where
  | newContext
  | setTileFetcher
  | urlQuery
  | queryGet (key : GoString)
  | logPrintf (msg : LogMsg L)
  | atoi (s : GoString)
  | parseFloat (s : GoString)
  | setSize (w h : Int)
  | setZoom (z : Int)
  | setCenter (c : LatLng L.Float)
  | parseColorString (s : GoString)
  | setBackground (c : L.Color)
  | parsePathString (s : GoString)
  | addPath (p : L.Path)
  | render
  | notFoundResponder (format : TileFormat)
  | setHeader (key value : GoString)
  | pngEncode (img : L.Image)

/-- The collaborators of the handler that are not the tile store. -/
structure Env (L : Lib) where
  /-- The constructor `sm.NewContext()`. -/
  NewContext : Context L
  /-- The parser `strconv.Atoi`. -/
  Atoi : GoString → Except L.Err Int
  /-- The parser `strconv.ParseFloat(s, 64)`. -/
  ParseFloat : GoString → Except L.Err L.Float
  /-- The parser `sm.ParseColorString`. -/
  ParseColorString : GoString → Except L.Err L.Color
  /-- The parser `sm.ParsePathString`. -/
  ParsePathString : GoString → Except L.Err (List L.Path)
  /-- The method `ctx.Render()`, returning an image (or nil) and an error (or nil). -/
  Render : Context L → Option L.Image × Option L.Err
  /-- The encoder `png.Encode(w, img)`, returning its error (or nil). -/
  pngEncode : L.Image → Option L.Err
  /-- The shared not-found responder, returning a status and an error (or nil). -/
  tileNotFoundHandler : TileFormat → Int × Option L.Err
  /-- The decoder `image.Decode`. -/
  Decode : Bytes → Except L.DecErr L.Image

/-- The tile store handle `mbtiles.DB`, through the three methods the file calls. -/
structure DB (L : Lib) where
  ReadTile : StoreKey → ReadResult L.Err
  TileFormat : TileFormat
  ContentType : GoString

/-- The errors the handler returns. -/
inductive HandlerError (L : Lib) where
  /-- Line 103: "requested path is too short". -/
  | pathTooShort
  /-- Line 130: "staticmap: cannot parse zoom ..". -/
  | cannotParseZoom (raw : GoString) (cause : L.Err)
  /-- Line 152: "staticmap: cannot parse background ..". -/
  | cannotParseBackground (raw : GoString) (cause : L.Err)
  /-- Line 157: "staticmap: cannot parse path ..". -/
  | cannotParsePath (raw : GoString) (cause : L.Err)
  /-- Line 163: the render error, with the raw zoom and coordinate segments. -/
  | cannotRender (z x y : GoString) (cause : L.Err)
  /-- Line 177: "cannot write image: ..". -/
  | cannotWriteImage (cause : L.Err)
  /-- Line 168: the error returned by the not-found responder, as is. -/
  | fromResponder (cause : L.Err)

/-- What the handler returns, `(int, error)`, with the render context and the trace of
collaborator calls at the moment it returns. -/
structure Response (L : Lib) where
  status : Int
  err : Option (HandlerError L)
  ctx : Context L
  trace : List (Event L)

/-- Status `http.StatusOK`. -/
def StatusOK : Int := 200
/-- Status `http.StatusBadRequest`. -/
def StatusBadRequest : Int := 400
/-- Status `http.StatusInternalServerError`. -/
def StatusInternalServerError : Int := 500

/-- Constant `DEFAULT_STATICMAP_WIDTH`. -/
def DEFAULT_STATICMAP_WIDTH : Int := 600
/-- Constant `DEFAULT_STATICMAP_HEIGHT`. -/
def DEFAULT_STATICMAP_HEIGHT : Int := 400

/-- The call `strings.Split(s, "/")`: the segments of `s` between the occurrences of the
separator; a string without separator is its own single segment. -/
def stringsSplit : GoString → List GoString
  | [] => [[]]
  | c :: cs =>
    if c = '/' then [] :: stringsSplit cs
    else
      match stringsSplit cs with
      | [] => [[c]]
      | seg :: segs => (c :: seg) :: segs

/-- The method `url.Values.Get`: the first value of the key, the empty string without one. -/
def queryGet (query : GoString → List GoString) (key : GoString) : GoString :=
  match query key with
  | [] => []
  | v :: _ => v

/-! ## Request handler: code -/

section Handler

variable {L : Lib}

/-- The function `handleBackgroundOption(ctx, p)` (lines 60 to 72): the context after the
call, the collaborator calls made, and the returned error. -/
def handleBackgroundOption (env : Env L) (ctx : Context L) (p : GoString) :
    Context L × List (Event L) × Option L.Err :=
  if p = [] then (ctx, [], none)
  else
    match env.ParseColorString p with
    | .error e => (ctx, [.parseColorString p], some e)
    | .ok color => (ctx.SetBackground color, [.parseColorString p, .setBackground color], none)

/-- The function `handlePathsOption(ctx, p)` (lines 74 to 88). -/
def handlePathsOption (env : Env L) (ctx : Context L) (p : GoString) :
    Context L × List (Event L) × Option L.Err :=
  if p = [] then (ctx, [], none)
  else
    match env.ParsePathString p with
    | .error e => (ctx, [.parsePathString p], some e)
    | .ok paths =>
      (paths.foldl Context.AddPath ctx, .parsePathString p :: paths.map Event.addPath, none)

/-- Lines 171 to 174: the headers set before the image is written. -/
def imageHeaders (db : DB L) : List (Event L) :=
  .setHeader "Content-Type".toList db.ContentType ::
    (if db.TileFormat = TileFormat.PBF
      then [.setHeader "Content-Encoding".toList "gzip".toList] else [])

/-- Lines 160 to 180: render, then the not-found responder or the PNG encoding. -/
def renderStage (env : Env L) (db : DB L) (pcs : List GoString) (ctx : Context L)
    (tr : List (Event L)) : Response L :=
  let l := pcs.length
  match env.Render ctx with
  | (_, some e) =>
    { status := StatusInternalServerError,
      err := some (.cannotRender (pcs.getD (l - 3) []) (pcs.getD (l - 2) []) (pcs.getD (l - 1) []) e),
      ctx := ctx, trace := tr ++ [.render] }
  | (none, none) =>
    let nf := env.tileNotFoundHandler db.TileFormat
    { status := nf.1, err := nf.2.map HandlerError.fromResponder,
      ctx := ctx, trace := tr ++ [.render, .notFoundResponder db.TileFormat] }
  | (some img, none) =>
    match env.pngEncode img with
    | some e =>
      { status := StatusInternalServerError, err := some (.cannotWriteImage e),
        ctx := ctx, trace := tr ++ [.render] ++ imageHeaders db ++ [.pngEncode img] }
    | none =>
      { status := StatusOK, err := none,
        ctx := ctx, trace := tr ++ [.render] ++ imageHeaders db ++ [.pngEncode img] }

/-- Lines 155 to 158: the `path` query parameter. -/
def pathsStage (env : Env L) (db : DB L) (query : GoString → List GoString)
    (pcs : List GoString) (ctx : Context L) (tr : List (Event L)) : Response L :=
  let path := queryGet query "path".toList
  match handlePathsOption env ctx path with
  | (ctx1, evs, some e) =>
    { status := StatusBadRequest, err := some (.cannotParsePath path e),
      ctx := ctx1, trace := tr ++ [.queryGet "path".toList] ++ evs }
  | (ctx1, evs, none) =>
    renderStage env db pcs ctx1 (tr ++ [.queryGet "path".toList] ++ evs)

/-- Lines 150 to 153: the `background` query parameter. -/
def backgroundStage (env : Env L) (db : DB L) (query : GoString → List GoString)
    (pcs : List GoString) (ctx : Context L) (tr : List (Event L)) : Response L :=
  let background := queryGet query "background".toList
  match handleBackgroundOption env ctx background with
  | (ctx1, evs, some e) =>
    { status := StatusBadRequest, err := some (.cannotParseBackground background e),
      ctx := ctx1, trace := tr ++ [.queryGet "background".toList] ++ evs }
  | (ctx1, evs, none) =>
    pathsStage env db query pcs ctx1 (tr ++ [.queryGet "background".toList] ++ evs)

/-- Lines 136 to 140 and 142 to 146: one coordinate segment, parsed as a float; the value
kept (the zero value of the variable when the parse fails) and the collaborator calls. -/
def parseCoordinate (env : Env L) (raw : GoString) (msg : GoString → L.Err → LogMsg L) :
    L.Float × List (Event L) :=
  match env.ParseFloat raw with
  | .error e => (L.zero, [.parseFloat raw, .logPrintf (msg raw e)])
  | .ok v => (v, [.parseFloat raw])

/-- Lines 135 to 148: the two coordinate segments and the centre of the map. -/
def centerStage (env : Env L) (db : DB L) (query : GoString → List GoString)
    (pcs : List GoString) (ctx : Context L) (tr : List (Event L)) : Response L :=
  let l := pcs.length
  let px := parseCoordinate env (pcs.getD (l - 2) []) LogMsg.cannotParseX
  let py := parseCoordinate env (pcs.getD (l - 1) []) LogMsg.cannotParseY
  let center := LatLngFromDegrees px.1 py.1
  backgroundStage env db query pcs (ctx.SetCenter center)
    (tr ++ px.2 ++ py.2 ++ [.setCenter center])

/-- Lines 129 to 133: the zoom segment. -/
def zoomStage (env : Env L) (db : DB L) (query : GoString → List GoString)
    (pcs : List GoString) (ctx : Context L) (tr : List (Event L)) : Response L :=
  let l := pcs.length
  let raw := pcs.getD (l - 3) []
  match env.Atoi raw with
  | .error e =>
    { status := StatusBadRequest, err := some (.cannotParseZoom raw e),
      ctx := ctx, trace := tr ++ [.atoi raw] }
  | .ok v => centerStage env db query pcs (ctx.SetZoom v) (tr ++ [.atoi raw, .setZoom v])

/-- Lines 108 to 116 and 118 to 126: one dimension of the image, from its query parameter;
the value kept and the collaborator calls. -/
def parseDimension (env : Env L) (query : GoString → List GoString) (key : GoString)
    (dflt : Int) (useDefault : LogMsg L) (cannotParse : GoString → L.Err → LogMsg L) :
    Int × List (Event L) :=
  let raw := queryGet query key
  if raw = [] then (dflt, [.queryGet key, .logPrintf useDefault])
  else
    match env.Atoi raw with
    | .error e => (dflt, [.queryGet key, .atoi raw, .logPrintf (cannotParse raw e)])
    | .ok v => (v, [.queryGet key, .atoi raw])

/-- Lines 106 to 127: the query, the width and the height. -/
def sizeStage (env : Env L) (db : DB L) (query : GoString → List GoString)
    (pcs : List GoString) (ctx : Context L) (tr : List (Event L)) : Response L :=
  let pw := parseDimension env query "width".toList DEFAULT_STATICMAP_WIDTH
    LogMsg.useDefaultWidth LogMsg.cannotParseWidth
  let ph := parseDimension env query "height".toList DEFAULT_STATICMAP_HEIGHT
    LogMsg.useDefaultHeight LogMsg.cannotParseHeight
  zoomStage env db query pcs (ctx.SetSize pw.1 ph.1)
    (tr ++ [.urlQuery] ++ pw.2 ++ ph.2 ++ [.setSize pw.1 ph.1])

/-- The handler returned by `ServiceSet.staticmap(db)` (lines 91 to 182), applied to the
path and the query of a request. The slice `r.URL.Path[1:]` of an empty path is a run-time
panic: `none`. -/
def staticmap (env : Env L) (db : DB L) (path : GoString)
    (query : GoString → List GoString) : Option (Response L) :=
  match path with
  | [] => none
  | _ :: rest =>
    let ctx := env.NewContext.SetTileFetcher (Fetch db.ReadTile env.Decode)
    let tr : List (Event L) := [.newContext, .setTileFetcher]
    let pcs := stringsSplit rest
    let l := pcs.length
    if l < 6 ∨ pcs[5]? = some [] then
      some { status := StatusBadRequest, err := some .pathTooShort, ctx := ctx, trace := tr }
    else some (sizeStage env db query pcs ctx tr)

end Handler

/-! ## A concrete instance of the collaborators

Used to evaluate the adapter and the handler on concrete requests. The parsers accept a
fragment of the grammar of the library parser they stand for, and reject the rest. -/

/-- Errors of the concrete collaborators. -/
inductive RefErr where
  | malformed | outOfRange | ioFailure | renderFailed
deriving DecidableEq, Repr

/-- A decimal value `mant / 10 ^ scale`, standing for a `float64`. -/
structure Decimal where
  mant : Int
  scale : Nat
deriving DecidableEq, Repr

/-- The value of a decimal digit. -/
def digitValue (c : Char) : Option Nat :=
  if 48 ≤ c.toNat ∧ c.toNat ≤ 57 then some (c.toNat - 48) else none

/-- The value of a string of decimal digits, continuing from `acc`. -/
def digitsValue (acc : Nat) : List Char → Option Nat
  | [] => some acc
  | c :: cs =>
    match digitValue c with
    | none => none
    | some d => digitsValue (10 * acc + d) cs

/-- An optional sign in front of a string: whether it is a minus, and the rest. -/
def splitSign : List Char → Bool × List Char
  | '-' :: rest => (true, rest)
  | '+' :: rest => (false, rest)
  | s => (false, s)

/-- Decimal integers as `strconv.Atoi` reads them: an optional sign and at least one
digit, the value in the range of `int`. -/
def refAtoi (s : GoString) : Except RefErr Int :=
  let sb := splitSign s
  if sb.2 = [] then .error .malformed
  else
    match digitsValue 0 sb.2 with
    | none => .error .malformed
    | some n =>
      let v : Int := if sb.1 then -(n : Int) else n
      if IsInt64 v then .ok v else .error .outOfRange

/-- Plain decimal numbers, a fragment of what `strconv.ParseFloat` reads: an optional
sign, digits, and at most one point followed by digits, with at least one digit. -/
def refParseFloat (s : GoString) : Except RefErr Decimal :=
  let sb := splitSign s
  let whole := sb.2.takeWhile (fun c => c ≠ '.')
  let frac := (sb.2.dropWhile (fun c => c ≠ '.')).drop 1
  if whole ++ frac = [] then .error .malformed
  else
    match digitsValue 0 (whole ++ frac) with
    | none => .error .malformed
    | some n => .ok { mant := if sb.1 then -(n : Int) else n, scale := frac.length }

/-- The value of a hexadecimal digit. -/
def hexValue (c : Char) : Option Nat :=
  if 48 ≤ c.toNat ∧ c.toNat ≤ 57 then some (c.toNat - 48)
  else if 97 ≤ c.toNat ∧ c.toNat ≤ 102 then some (c.toNat - 87)
  else if 65 ≤ c.toNat ∧ c.toNat ≤ 70 then some (c.toNat - 55)
  else none

/-- A colour as its red, green and blue components. -/
structure RGB where
  r : Nat
  g : Nat
  b : Nat
deriving DecidableEq, Repr

/-- Colours written `#RRGGBB`, a fragment of what `sm.ParseColorString` reads. -/
def refParseColorString (s : GoString) : Except RefErr RGB :=
  match s with
  | ['#', r1, r0, g1, g0, b1, b0] =>
    match hexValue r1, hexValue r0, hexValue g1, hexValue g0, hexValue b1, hexValue b0 with
    | some a, some b, some c, some d, some e, some f =>
      .ok { r := 16 * a + b, g := 16 * c + d, b := 16 * e + f }
    | _, _, _, _, _, _ => .error .malformed
  | _ => .error .malformed

/-- Overlay paths written as a non-empty string without blank, one path per string. -/
def refParsePathString (s : GoString) : Except RefErr (List GoString) :=
  if s = [] ∨ ' ' ∈ s then .error .malformed else .ok [s]

/-- The concrete types: decimals for floats, an image is its pixel size. -/
@[reducible]
def refLib : Lib :=
  { Float := Decimal, zero := { mant := 0, scale := 0 }, Color := RGB, Path := GoString,
    Image := Int × Int, Err := RefErr, DecErr := RefErr }

/-- The concrete rendering engine: a context with a fetcher and a zoom renders to an image
of the size set on the context. -/
def refRender (ctx : Context refLib) : Option (Int × Int) × Option RefErr :=
  match ctx.tileFetcher, ctx.zoom with
  | some _, some _ => (some (ctx.width, ctx.height), none)
  | _, _ => (none, some .renderFailed)

/-- The concrete image decoder: a payload that starts with the first byte of the PNG
signature decodes to a tile of 256 by 256 pixels. -/
def refDecode (data : Bytes) : Except RefErr (Int × Int) :=
  match data with
  | 137 :: _ => .ok (256, 256)
  | _ => .error .malformed

/-- The concrete collaborators. -/
def refEnv : Env refLib :=
  { NewContext :=
      { width := 512, height := 512, zoom := none, center := none, background := none,
        paths := [], tileFetcher := none },
    Atoi := refAtoi,
    ParseFloat := refParseFloat,
    ParseColorString := refParseColorString,
    ParsePathString := refParsePathString,
    Render := refRender,
    pngEncode := fun _ => none,
    tileNotFoundHandler := fun _ => (404, none),
    Decode := refDecode }

/-- A concrete store: a two-byte tile at `(3, 5, 5)`, a one-byte payload at zoom 1, an
empty payload at zoom 2, a failing read at zoom 4, and no row elsewhere. -/
def refReadTile (key : StoreKey) : ReadResult RefErr :=
  if key = ⟨3, 5, 5⟩ then { data := some [137, 80], err := none }
  else if key.zoom = 1 then { data := some [0], err := none }
  else if key.zoom = 2 then { data := some [], err := none }
  else if key.zoom = 4 then { data := none, err := some .ioFailure }
  else { data := none, err := none }

/-- The concrete store handle. -/
def refDB : DB refLib :=
  { ReadTile := refReadTile, TileFormat := TileFormat.PNG, ContentType := "image/png".toList }

/-- A query without any parameter. -/
def noQuery : GoString → List GoString := fun _ => []

/-- A query given as a list of keys with their values. -/
def queryOf (kvs : List (GoString × GoString)) : GoString → List GoString :=
  fun key => (kvs.filter (fun kv => kv.1 = key)).map (fun kv => kv.2)

/-! ## The handler at its intermediate points

The context and the trace with which the handler reaches the zoom segment and the
background option, and the classes of events used to describe its trace. -/

section Points

variable {L : Lib}

/-- The width kept by the handler. -/
def widthOf (env : Env L) (query : GoString → List GoString) : Int × List (Event L) :=
  parseDimension env query "width".toList DEFAULT_STATICMAP_WIDTH
    LogMsg.useDefaultWidth LogMsg.cannotParseWidth

/-- The height kept by the handler. -/
def heightOf (env : Env L) (query : GoString → List GoString) : Int × List (Event L) :=
  parseDimension env query "height".toList DEFAULT_STATICMAP_HEIGHT
    LogMsg.useDefaultHeight LogMsg.cannotParseHeight

/-- The context when the handler reaches the zoom segment (line 129). -/
def sizedContext (env : Env L) (db : DB L) (query : GoString → List GoString) : Context L :=
  (env.NewContext.SetTileFetcher (Fetch db.ReadTile env.Decode)).SetSize
    (widthOf env query).1 (heightOf env query).1

/-- The trace when the handler reaches the zoom segment (line 129). -/
def sizedTrace (env : Env L) (query : GoString → List GoString) : List (Event L) :=
  [.newContext, .setTileFetcher] ++ [.urlQuery] ++ (widthOf env query).2
    ++ (heightOf env query).2 ++ [.setSize (widthOf env query).1 (heightOf env query).1]

/-- The zoom segment of a split path: the third from the end. -/
def zoomSegment (pcs : List GoString) : GoString := pcs.getD (pcs.length - 3) []

/-- The x segment of a split path: the second from the end. -/
def xSegment (pcs : List GoString) : GoString := pcs.getD (pcs.length - 2) []

/-- The y segment of a split path: the last one. -/
def ySegment (pcs : List GoString) : GoString := pcs.getD (pcs.length - 1) []

/-- The value the handler keeps for a coordinate segment: the parsed float, or the zero
value when the parse fails. -/
def coordinateOf (env : Env L) (raw : GoString) : L.Float :=
  match env.ParseFloat raw with
  | .error _ => L.zero
  | .ok v => v

/-- The centre the handler sets (line 148), from the split path. -/
def centerOf (env : Env L) (pcs : List GoString) : LatLng L.Float :=
  LatLngFromDegrees (coordinateOf env (xSegment pcs)) (coordinateOf env (ySegment pcs))

/-- The context when the handler reaches the background option (line 150), after a zoom
segment that parsed as `v`. -/
def centeredContext (env : Env L) (db : DB L) (query : GoString → List GoString)
    (pcs : List GoString) (v : Int) : Context L :=
  ((sizedContext env db query).SetZoom v).SetCenter (centerOf env pcs)

/-- The trace when the handler reaches the background option (line 150), after a zoom
segment that parsed as `v`. -/
def centeredTrace (env : Env L) (query : GoString → List GoString)
    (pcs : List GoString) (v : Int) : List (Event L) :=
  sizedTrace env query ++ [.atoi (zoomSegment pcs), .setZoom v]
    ++ (parseCoordinate env (xSegment pcs) LogMsg.cannotParseX).2
    ++ (parseCoordinate env (ySegment pcs) LogMsg.cannotParseY).2
    ++ [.setCenter (centerOf env pcs)]

/-- Events of the render stage: the render, the responder, the headers, the encoding. -/
def Event.isRenderStep : Event L → Bool
  | .render | .notFoundResponder _ | .setHeader _ _ | .pngEncode _ => true
  | _ => false

/-- Events of the background option: the colour parse and the background setter. -/
def Event.isColorStep : Event L → Bool
  | .parseColorString _ | .setBackground _ => true
  | _ => false

/-- Events of the path option: the path parse and the additions of paths. -/
def Event.isPathStep : Event L → Bool
  | .parsePathString _ | .addPath _ => true
  | _ => false

/-- Events of the render stage that are not the render itself. -/
def Event.isAfterRender : Event L → Bool
  | .notFoundResponder _ | .setHeader _ _ | .pngEncode _ => true
  | _ => false

end Points

/-! ## Properties of the tile fetch adapter -/

theorem wrapInt64_of_range (n : Int) (h : IsInt64 n) : wrapInt64 n = n := by
  unfold IsInt64 at h
  unfold wrapInt64
  norm_num at h ⊢
  omega

theorem toUint64_of_nonneg (n : Int) (h0 : 0 ≤ n) (h : n < 2 ^ 64) :
    toUint64 n = n.toNat := by
  unfold toUint64
  rw [Int.emod_eq_of_lt h0 h]

theorem toUint8_of_nonneg (n : Int) (h0 : 0 ≤ n) (h : n < 2 ^ 8) : toUint8 n = n.toNat := by
  unfold toUint8
  rw [Int.emod_eq_of_lt h0 h]

theorem shiftOne_of_le_62 (z : Int) (h0 : 0 ≤ z) (h : z ≤ 62) : shiftOne z = 2 ^ z.toNat := by
  have hz : toUint64 z = z.toNat := toUint64_of_nonneg z h0 (by norm_num; omega)
  unfold shiftOne
  rw [hz, if_pos (by omega)]
  apply wrapInt64_of_range
  have hp : (2 : Int) ^ z.toNat ≤ 2 ^ 62 := pow_le_pow_right₀ (by norm_num) (by omega)
  have hpos : (0 : Int) < 2 ^ z.toNat := by positivity
  constructor
  · norm_num; omega
  · norm_num at hp ⊢; omega

theorem shiftOne_63 : shiftOne 63 = -(2 : Int) ^ 63 := by decide

/-- On a word of 64 bits the flip of `Fetch` is the subtraction from `2^z - 1`, for every
zoom up to 63 and every row of that zoom. -/
theorem flipY_of_le_63 (z y : Int) (h0 : 0 ≤ z) (h : z ≤ 63) (hy0 : 0 ≤ y)
    (hy : y < 2 ^ z.toNat) : flipY z y = 2 ^ z.toNat - 1 - y := by
  rcases lt_or_le z 63 with h62 | h63
  · have hp : (2 : Int) ^ z.toNat ≤ 2 ^ 62 := pow_le_pow_right₀ (by norm_num) (by omega)
    unfold flipY
    rw [shiftOne_of_le_62 z h0 (by omega)]
    generalize (2 : Int) ^ z.toNat = p at *
    unfold wrapInt64
    norm_num at hp ⊢
    omega
  · have hz : z = 63 := by omega
    subst hz
    have h63 : (2 : Int) ^ (63 : Int).toNat = 9223372036854775808 := by decide
    rw [h63] at hy ⊢
    unfold flipY
    rw [shiftOne_63]
    unfold wrapInt64
    norm_num
    omega

/-- The store key of a fetch whose zoom, column and flipped row are in range. -/
theorem Fetch_key {Err DecErr Image : Type} (ReadTile : StoreKey → ReadResult Err)
    (Decode : Bytes → Except DecErr Image) (z x y : Int)
    (hz0 : 0 ≤ z) (hz : z ≤ 62) (hx0 : 0 ≤ x) (hx : IsInt64 x) (hy0 : 0 ≤ y)
    (hy : y < 2 ^ z.toNat) :
    Fetch ReadTile Decode z x y =
      { reads := [⟨z.toNat, x.toNat, 2 ^ z.toNat - 1 - y.toNat⟩],
        result := fetchResult Decode z x (2 ^ z.toNat - 1 - y)
          (ReadTile ⟨z.toNat, x.toNat, 2 ^ z.toNat - 1 - y.toNat⟩) } := by
  have hflip := flipY_of_le_63 z y hz0 (by omega) hy0 hy
  have hp : (2 : Int) ^ z.toNat ≤ 2 ^ 62 := pow_le_pow_right₀ (by norm_num) (by omega)
  have h8 : toUint8 z = z.toNat := toUint8_of_nonneg z hz0 (by norm_num; omega)
  have hx64 : toUint64 x = x.toNat :=
    toUint64_of_nonneg x hx0 (by unfold IsInt64 at hx; norm_num at hx ⊢; omega)
  have hy64 : toUint64 (2 ^ z.toNat - 1 - y) = 2 ^ z.toNat - 1 - y.toNat := by
    rw [toUint64_of_nonneg _ (by omega) (by norm_num at hp ⊢; omega)]
    have hcast : ((2 ^ z.toNat : Nat) : Int) = (2 : Int) ^ z.toNat := by push_cast; rfl
    have hyc : (y.toNat : Int) = y := Int.toNat_of_nonneg hy0
    omega
  unfold Fetch
  simp only [hflip, h8, hx64, hy64]

/-- C1: for every zoom `0 ≤ z ≤ 62`, column `x ≥ 0` and renderer row `0 ≤ y < 2^z`, the
method `Fetch(z, x, y)` reads the store exactly once, at the coordinate
`(z, x, (2^z - 1) - y)`, and its result is the one decided by that read; renderer row `0`
reads store row `2^z - 1` and renderer row `2^z - 1` reads store row `0`. -/
theorem Fetch_reads_flipped_row {Err DecErr Image : Type}
    (ReadTile : StoreKey → ReadResult Err) (Decode : Bytes → Except DecErr Image)
    (z x y : Int) (hz0 : 0 ≤ z) (hz : z ≤ 62) (hx0 : 0 ≤ x) (hx : IsInt64 x) (hy0 : 0 ≤ y)
    (hy : y < 2 ^ z.toNat) :
    (Fetch ReadTile Decode z x y).reads = [⟨z.toNat, x.toNat, 2 ^ z.toNat - 1 - y.toNat⟩]
    ∧ (Fetch ReadTile Decode z x y).result =
        fetchResult Decode z x (2 ^ z.toNat - 1 - y)
          (ReadTile ⟨z.toNat, x.toNat, 2 ^ z.toNat - 1 - y.toNat⟩)
    ∧ (Fetch ReadTile Decode z x 0).reads = [⟨z.toNat, x.toNat, 2 ^ z.toNat - 1⟩]
    ∧ (Fetch ReadTile Decode z x (2 ^ z.toNat - 1)).reads = [⟨z.toNat, x.toNat, 0⟩] := by
  have hpos : (0 : Int) < 2 ^ z.toNat := by positivity
  refine ⟨?_, ?_, ?_, ?_⟩
  · rw [Fetch_key ReadTile Decode z x y hz0 hz hx0 hx hy0 hy]
  · rw [Fetch_key ReadTile Decode z x y hz0 hz hx0 hx hy0 hy]
  · rw [Fetch_key ReadTile Decode z x 0 hz0 hz hx0 hx (le_refl 0) hpos]
    simp
  · rw [Fetch_key ReadTile Decode z x (2 ^ z.toNat - 1) hz0 hz hx0 hx (by omega) (by omega)]
    have hcast : ((2 ^ z.toNat : Nat) : Int) = (2 : Int) ^ z.toNat := by push_cast; rfl
    have hn : ((2 : Int) ^ z.toNat - 1).toNat = 2 ^ z.toNat - 1 := by omega
    simp [hn]

/-- C1, at zoom 3, column 5 and renderer row 2 of the concrete store: the read is at store
row 5. -/
theorem Fetch_reads_flipped_row_witness :
    (Fetch refReadTile refDecode 3 5 2).reads = [⟨3, 5, 5⟩]
    ∧ (Fetch refReadTile refDecode 3 5 2).result = .ok (256, 256) := by
  have h := Fetch_reads_flipped_row refReadTile refDecode 3 5 2 (by decide) (by decide)
    (by decide) (by decide) (by decide) (by decide)
  exact ⟨h.1, by decide⟩

/-- C9, as stated, fails at zoom 64 and renderer row 0: the shift leaves the word, the
flip gives row `-1`, which is not a row of the zoom. -/
theorem flipY_zoom_64_not_in_range :
    ¬ (0 ≤ flipY 64 0 ∧ flipY 64 0 < 2 ^ 64 ∧ flipY 64 (flipY 64 0) = 0) := by decide

/-- C9, amended: for every zoom `0 ≤ z ≤ 63` and every renderer row `0 ≤ r < 2^z`, the
flip of `Fetch` gives the store row `(2^z - 1) - r`, which lies in `0 ≤ row < 2^z`, and
applying the flip again gives back `r`. -/
theorem flipY_involutive_of_le_63 (z r : Int) (hz0 : 0 ≤ z) (hz : z ≤ 63) (hr0 : 0 ≤ r)
    (hr : r < 2 ^ z.toNat) :
    flipY z r = 2 ^ z.toNat - 1 - r
    ∧ 0 ≤ flipY z r ∧ flipY z r < 2 ^ z.toNat
    ∧ flipY z (flipY z r) = r := by
  have h1 := flipY_of_le_63 z r hz0 hz hr0 hr
  have h2 := flipY_of_le_63 z (2 ^ z.toNat - 1 - r) hz0 hz (by omega) (by omega)
  refine ⟨h1, by omega, by omega, ?_⟩
  rw [h1, h2]
  omega

/-- C9, amended, at zoom 63 and renderer row 0. -/
theorem flipY_involutive_of_le_63_witness :
    flipY 63 0 = 2 ^ (63 : Int).toNat - 1 - 0
    ∧ 0 ≤ flipY 63 0 ∧ flipY 63 0 < 2 ^ (63 : Int).toNat
    ∧ flipY 63 (flipY 63 0) = 0 :=
  flipY_involutive_of_le_63 63 0 (by decide) (by decide) (by decide) (by decide)

/-- C4, as stated, fails for a store read that succeeds with a payload of 0 bytes: the
error of `Fetch` is the tile-not-found one, not the cannot-fetch one. -/
theorem Fetch_empty_payload_is_tileNotFound :
    (Fetch refReadTile refDecode 2 0 0).result = .error (.tileNotFound 2 0 3)
    ∧ ¬ ∃ z x y e, (Fetch refReadTile refDecode 2 0 0).result = .error (.cannotFetch z x y e) := by
  constructor
  · decide
  · rintro ⟨z, x, y, e, h⟩
    have h2 : (Fetch refReadTile refDecode 2 0 0).result = .error (.tileNotFound 2 0 3) := by
      decide
    rw [h2] at h
    cases h

/-- C4, amended: when the store read succeeds and leaves a payload of at most 1 byte (a
nil payload, 0 bytes or exactly 1 byte), `Fetch` fails with the tile-not-found error; when
the store read itself fails, `Fetch` fails with the cannot-fetch error wrapping the cause,
and not with the tile-not-found error. -/
theorem Fetch_failure_kinds {Err DecErr Image : Type}
    (ReadTile : StoreKey → ReadResult Err) (Decode : Bytes → Except DecErr Image)
    (z x y : Int) :
    (∀ data, ReadTile ⟨toUint8 z, toUint64 x, toUint64 (flipY z y)⟩ = ⟨some data, none⟩ →
        data.length ≤ 1 →
        (Fetch ReadTile Decode z x y).result = .error (.tileNotFound z x (flipY z y)))
    ∧ (ReadTile ⟨toUint8 z, toUint64 x, toUint64 (flipY z y)⟩ = ⟨none, none⟩ →
        (Fetch ReadTile Decode z x y).result = .error (.tileNotFound z x (flipY z y)))
    ∧ (∀ data e, ReadTile ⟨toUint8 z, toUint64 x, toUint64 (flipY z y)⟩ = ⟨data, some e⟩ →
        (Fetch ReadTile Decode z x y).result = .error (.cannotFetch z x (flipY z y) e)
        ∧ (Fetch ReadTile Decode z x y).result ≠ .error (.tileNotFound z x (flipY z y))) := by
  refine ⟨?_, ?_, ?_⟩
  · intro data h hlen
    simp [Fetch, fetchResult, h, hlen]
  · intro h
    simp [Fetch, fetchResult, h]
  · intro data e h
    simp [Fetch, fetchResult, h]

/-- C4, amended, on the concrete store: a payload of 1 byte (zoom 1), a payload of 0 bytes
(zoom 2), no row (zoom 0) and a failing read (zoom 4). -/
theorem Fetch_failure_kinds_witness :
    (Fetch refReadTile refDecode 1 0 0).result = .error (.tileNotFound 1 0 (flipY 1 0))
    ∧ (Fetch refReadTile refDecode 2 0 0).result = .error (.tileNotFound 2 0 (flipY 2 0))
    ∧ (Fetch refReadTile refDecode 0 0 0).result = .error (.tileNotFound 0 0 (flipY 0 0))
    ∧ (Fetch refReadTile refDecode 4 0 0).result
        = .error (.cannotFetch 4 0 (flipY 4 0) RefErr.ioFailure) :=
  ⟨(Fetch_failure_kinds refReadTile refDecode 1 0 0).1 [0] (by decide) (by decide),
   (Fetch_failure_kinds refReadTile refDecode 2 0 0).1 [] (by decide) (by decide),
   (Fetch_failure_kinds refReadTile refDecode 0 0 0).2.1 (by decide),
   ((Fetch_failure_kinds refReadTile refDecode 4 0 0).2.2 none RefErr.ioFailure
      (by decide)).1⟩

/-! ## Properties of the handler: the way to the background option -/

section HandlerLemmas

variable {L : Lib}

theorem parseDimension_steps (env : Env L) (query : GoString → List GoString)
    (key : GoString) (dflt : Int) (m1 : LogMsg L) (m2 : GoString → L.Err → LogMsg L) :
    ∀ e ∈ (parseDimension env query key dflt m1 m2).2,
      e.isRenderStep = false ∧ e.isColorStep = false ∧ e.isPathStep = false := by
  intro e he
  by_cases h : queryGet query key = []
  · simp [parseDimension, h] at he
    rcases he with rfl | rfl <;> simp [Event.isRenderStep, Event.isColorStep, Event.isPathStep]
  · cases hA : env.Atoi (queryGet query key) with
    | error err =>
      simp [parseDimension, h, hA] at he
      rcases he with rfl | rfl | rfl <;>
        simp [Event.isRenderStep, Event.isColorStep, Event.isPathStep]
    | ok v =>
      simp [parseDimension, h, hA] at he
      rcases he with rfl | rfl <;>
        simp [Event.isRenderStep, Event.isColorStep, Event.isPathStep]

theorem parseCoordinate_steps (env : Env L) (raw : GoString)
    (msg : GoString → L.Err → LogMsg L) :
    ∀ e ∈ (parseCoordinate env raw msg).2,
      e.isRenderStep = false ∧ e.isColorStep = false ∧ e.isPathStep = false := by
  intro e he
  cases hP : env.ParseFloat raw with
  | error err =>
    simp [parseCoordinate, hP] at he
    rcases he with rfl | rfl <;> simp [Event.isRenderStep, Event.isColorStep, Event.isPathStep]
  | ok v =>
    simp [parseCoordinate, hP] at he
    subst he
    simp [Event.isRenderStep, Event.isColorStep, Event.isPathStep]

theorem parseCoordinate_value (env : Env L) (raw : GoString)
    (msg : GoString → L.Err → LogMsg L) :
    (parseCoordinate env raw msg).1 = coordinateOf env raw := by
  unfold parseCoordinate coordinateOf
  split <;> simp_all

theorem parseCoordinate_call (env : Env L) (raw : GoString)
    (msg : GoString → L.Err → LogMsg L) :
    Event.parseFloat raw ∈ (parseCoordinate env raw msg).2 := by
  unfold parseCoordinate
  split <;> simp

theorem sizedTrace_steps (env : Env L) (query : GoString → List GoString) :
    ∀ e ∈ sizedTrace env query,
      e.isRenderStep = false ∧ e.isColorStep = false ∧ e.isPathStep = false := by
  intro e he
  unfold sizedTrace at he
  simp only [List.mem_append, List.mem_cons, List.mem_singleton, List.not_mem_nil,
    or_false] at he
  rcases he with ((((rfl | rfl) | rfl) | hw) | hh) | rfl
  · simp [Event.isRenderStep, Event.isColorStep, Event.isPathStep]
  · simp [Event.isRenderStep, Event.isColorStep, Event.isPathStep]
  · simp [Event.isRenderStep, Event.isColorStep, Event.isPathStep]
  · exact parseDimension_steps _ _ _ _ _ _ e hw
  · exact parseDimension_steps _ _ _ _ _ _ e hh
  · simp [Event.isRenderStep, Event.isColorStep, Event.isPathStep]

theorem centeredTrace_steps (env : Env L) (query : GoString → List GoString)
    (pcs : List GoString) (v : Int) :
    ∀ e ∈ centeredTrace env query pcs v,
      e.isRenderStep = false ∧ e.isColorStep = false ∧ e.isPathStep = false := by
  intro e he
  unfold centeredTrace at he
  simp only [List.mem_append, List.mem_cons, List.mem_singleton, List.not_mem_nil,
    or_false] at he
  rcases he with (((hs | rfl | rfl) | hx) | hy) | rfl
  · exact sizedTrace_steps env query e hs
  · simp [Event.isRenderStep, Event.isColorStep, Event.isPathStep]
  · simp [Event.isRenderStep, Event.isColorStep, Event.isPathStep]
  · exact parseCoordinate_steps _ _ _ e hx
  · exact parseCoordinate_steps _ _ _ e hy
  · simp [Event.isRenderStep, Event.isColorStep, Event.isPathStep]

/-- A request whose path passes the length check reaches the zoom segment, with the size
set on the context. -/
theorem staticmap_eq_zoomStage (env : Env L) (db : DB L) (c : Char) (rest : GoString)
    (query : GoString → List GoString)
    (hlen : 6 ≤ (stringsSplit rest).length) (h6 : (stringsSplit rest)[5]? ≠ some []) :
    staticmap env db (c :: rest) query =
      some (zoomStage env db query (stringsSplit rest) (sizedContext env db query)
        (sizedTrace env query)) := by
  have hcond : ¬ ((stringsSplit rest).length < 6 ∨ (stringsSplit rest)[5]? = some []) := by
    rintro (h | h)
    · omega
    · exact h6 h
  simp only [staticmap, if_neg hcond, sizeStage, sizedContext, sizedTrace, widthOf, heightOf]

/-- A request that passes the length check and the zoom check reaches the background
option, with size, zoom and centre set on the context. -/
theorem staticmap_eq_backgroundStage (env : Env L) (db : DB L) (c : Char) (rest : GoString)
    (query : GoString → List GoString) (v : Int)
    (hlen : 6 ≤ (stringsSplit rest).length) (h6 : (stringsSplit rest)[5]? ≠ some [])
    (hzoom : env.Atoi (zoomSegment (stringsSplit rest)) = .ok v) :
    staticmap env db (c :: rest) query =
      some (backgroundStage env db query (stringsSplit rest)
        (centeredContext env db query (stringsSplit rest) v)
        (centeredTrace env query (stringsSplit rest) v)) := by
  rw [staticmap_eq_zoomStage env db c rest query hlen h6]
  unfold zoomSegment at hzoom
  simp only [zoomStage, hzoom, centerStage, centeredContext, centeredTrace, centerOf,
    parseCoordinate_value, xSegment, ySegment, zoomSegment, List.append_assoc,
    List.cons_append, List.nil_append]

/-! ### The render stage -/

theorem renderStage_render_error (env : Env L) (db : DB L) (pcs : List GoString)
    (ctx : Context L) (tr : List (Event L)) (img : Option L.Image) (e : L.Err)
    (h : env.Render ctx = (img, some e)) :
    renderStage env db pcs ctx tr =
      { status := StatusInternalServerError,
        err := some (.cannotRender (zoomSegment pcs) (xSegment pcs) (ySegment pcs) e),
        ctx := ctx, trace := tr ++ [.render] } := by
  simp only [renderStage, h, zoomSegment, xSegment, ySegment]

theorem renderStage_no_image (env : Env L) (db : DB L) (pcs : List GoString)
    (ctx : Context L) (tr : List (Event L)) (h : env.Render ctx = (none, none)) :
    renderStage env db pcs ctx tr =
      { status := (env.tileNotFoundHandler db.TileFormat).1,
        err := (env.tileNotFoundHandler db.TileFormat).2.map HandlerError.fromResponder,
        ctx := ctx, trace := tr ++ [.render, .notFoundResponder db.TileFormat] } := by
  simp only [renderStage, h]

theorem renderStage_encode_error (env : Env L) (db : DB L) (pcs : List GoString)
    (ctx : Context L) (tr : List (Event L)) (img : L.Image) (e : L.Err)
    (h : env.Render ctx = (some img, none)) (hE : env.pngEncode img = some e) :
    renderStage env db pcs ctx tr =
      { status := StatusInternalServerError, err := some (.cannotWriteImage e),
        ctx := ctx, trace := tr ++ [.render] ++ imageHeaders db ++ [.pngEncode img] } := by
  simp only [renderStage, h, hE]

theorem renderStage_encoded (env : Env L) (db : DB L) (pcs : List GoString)
    (ctx : Context L) (tr : List (Event L)) (img : L.Image)
    (h : env.Render ctx = (some img, none)) (hE : env.pngEncode img = none) :
    renderStage env db pcs ctx tr =
      { status := StatusOK, err := none,
        ctx := ctx, trace := tr ++ [.render] ++ imageHeaders db ++ [.pngEncode img] } := by
  simp only [renderStage, h, hE]

theorem imageHeaders_steps (db : DB L) :
    ∀ e ∈ (imageHeaders db : List (Event L)), ∃ k v, e = Event.setHeader k v := by
  intro e he
  unfold imageHeaders at he
  by_cases hf : db.TileFormat = TileFormat.PBF
  · simp [hf] at he
    rcases he with rfl | rfl <;> exact ⟨_, _, rfl⟩
  · simp [hf] at he
    subst he
    exact ⟨_, _, rfl⟩

theorem renderStage_ctx (env : Env L) (db : DB L) (pcs : List GoString) (ctx : Context L)
    (tr : List (Event L)) : (renderStage env db pcs ctx tr).ctx = ctx := by
  rcases hR : env.Render ctx with ⟨img, err⟩
  cases err with
  | some e => rw [renderStage_render_error env db pcs ctx tr img e hR]
  | none =>
    cases img with
    | none => rw [renderStage_no_image env db pcs ctx tr hR]
    | some i =>
      cases hE : env.pngEncode i with
      | some e => rw [renderStage_encode_error env db pcs ctx tr i e hR hE]
      | none => rw [renderStage_encoded env db pcs ctx tr i hR hE]

theorem renderStage_trace (env : Env L) (db : DB L) (pcs : List GoString) (ctx : Context L)
    (tr : List (Event L)) :
    ∃ evs, (renderStage env db pcs ctx tr).trace = tr ++ Event.render :: evs
      ∧ ∀ e ∈ evs, e.isAfterRender = true := by
  have hh : ∀ i : L.Image, ∀ e ∈ imageHeaders db ++ [Event.pngEncode i],
      e.isAfterRender = true := by
    intro i e he
    simp only [List.mem_append, List.mem_singleton] at he
    rcases he with he | rfl
    · obtain ⟨k, v, rfl⟩ := imageHeaders_steps db e he
      simp [Event.isAfterRender]
    · simp [Event.isAfterRender]
  rcases hR : env.Render ctx with ⟨img, err⟩
  cases err with
  | some e =>
    rw [renderStage_render_error env db pcs ctx tr img e hR]
    exact ⟨[], by simp⟩
  | none =>
    cases img with
    | none =>
      rw [renderStage_no_image env db pcs ctx tr hR]
      exact ⟨[.notFoundResponder db.TileFormat], by simp [Event.isAfterRender]⟩
    | some i =>
      cases hE : env.pngEncode i with
      | some e =>
        rw [renderStage_encode_error env db pcs ctx tr i e hR hE]
        exact ⟨imageHeaders db ++ [Event.pngEncode i], by simp, hh i⟩
      | none =>
        rw [renderStage_encoded env db pcs ctx tr i hR hE]
        exact ⟨imageHeaders db ++ [Event.pngEncode i], by simp, hh i⟩

theorem isAfterRender_ne_render {e : Event L} (h : e.isAfterRender = true) :
    e ≠ Event.render := by
  rintro rfl
  simp [Event.isAfterRender] at h

/-! ### The path option -/

theorem foldl_AddPath_fields (paths : List L.Path) (ctx : Context L) :
    (paths.foldl Context.AddPath ctx).width = ctx.width
    ∧ (paths.foldl Context.AddPath ctx).height = ctx.height
    ∧ (paths.foldl Context.AddPath ctx).zoom = ctx.zoom
    ∧ (paths.foldl Context.AddPath ctx).center = ctx.center
    ∧ (paths.foldl Context.AddPath ctx).background = ctx.background := by
  induction paths generalizing ctx with
  | nil => simp
  | cons p ps ih =>
    simp only [List.foldl_cons]
    have h := ih (ctx.AddPath p)
    simpa [Context.AddPath] using h

theorem handlePathsOption_fields (env : Env L) (ctx : Context L) (p : GoString) :
    (handlePathsOption env ctx p).1.width = ctx.width
    ∧ (handlePathsOption env ctx p).1.height = ctx.height
    ∧ (handlePathsOption env ctx p).1.zoom = ctx.zoom
    ∧ (handlePathsOption env ctx p).1.center = ctx.center
    ∧ (handlePathsOption env ctx p).1.background = ctx.background := by
  by_cases hp : p = []
  · simp [handlePathsOption, hp]
  · cases hP : env.ParsePathString p with
    | error e => simp [handlePathsOption, hp, hP]
    | ok paths =>
      simp only [handlePathsOption, hp, hP, if_false]
      exact foldl_AddPath_fields paths ctx

theorem handlePathsOption_steps (env : Env L) (ctx : Context L) (p : GoString) :
    ∀ e ∈ (handlePathsOption env ctx p).2.1, e.isPathStep = true := by
  intro e he
  by_cases hp : p = []
  · simp [handlePathsOption, hp] at he
  · cases hP : env.ParsePathString p with
    | error err =>
      simp [handlePathsOption, hp, hP] at he
      subst he
      simp [Event.isPathStep]
    | ok paths =>
      simp [handlePathsOption, hp, hP] at he
      rcases he with rfl | ⟨a, _, rfl⟩ <;> simp [Event.isPathStep]

theorem handlePathsOption_ok (env : Env L) (ctx : Context L) (p : GoString)
    (h : p = [] ∨ ∃ paths, env.ParsePathString p = .ok paths) :
    (handlePathsOption env ctx p).2.2 = none := by
  by_cases hp : p = []
  · simp [handlePathsOption, hp]
  · rcases h with h | ⟨paths, hP⟩
    · exact absurd h hp
    · simp [handlePathsOption, hp, hP]

theorem pathsStage_rejected (env : Env L) (db : DB L)
    (query : GoString → List GoString) (pcs : List GoString) (ctx : Context L)
    (tr : List (Event L)) (e : L.Err)
    (h : (handlePathsOption env ctx (queryGet query "path".toList)).2.2 = some e) :
    pathsStage env db query pcs ctx tr =
      { status := StatusBadRequest,
        err := some (.cannotParsePath (queryGet query "path".toList) e),
        ctx := (handlePathsOption env ctx (queryGet query "path".toList)).1,
        trace := tr ++ [.queryGet "path".toList]
          ++ (handlePathsOption env ctx (queryGet query "path".toList)).2.1 } := by
  simp only [pathsStage]
  generalize handlePathsOption env ctx (queryGet query "path".toList) = hp at h ⊢
  obtain ⟨ctx1, evs, err⟩ := hp
  simp only at h
  subst h
  rfl

/-- The path stage is the render stage when the path option is accepted. -/
theorem pathsStage_eq_renderStage (env : Env L) (db : DB L)
    (query : GoString → List GoString) (pcs : List GoString) (ctx : Context L)
    (tr : List (Event L))
    (h : (handlePathsOption env ctx (queryGet query "path".toList)).2.2 = none) :
    pathsStage env db query pcs ctx tr =
      renderStage env db pcs (handlePathsOption env ctx (queryGet query "path".toList)).1
        (tr ++ [.queryGet "path".toList]
          ++ (handlePathsOption env ctx (queryGet query "path".toList)).2.1) := by
  simp only [pathsStage]
  generalize handlePathsOption env ctx (queryGet query "path".toList) = hp at h ⊢
  obtain ⟨ctx1, evs, err⟩ := hp
  simp only at h
  subst h
  rfl

theorem pathsStage_fields (env : Env L) (db : DB L) (query : GoString → List GoString)
    (pcs : List GoString) (ctx : Context L) (tr : List (Event L)) :
    (pathsStage env db query pcs ctx tr).ctx.width = ctx.width
    ∧ (pathsStage env db query pcs ctx tr).ctx.height = ctx.height
    ∧ (pathsStage env db query pcs ctx tr).ctx.zoom = ctx.zoom
    ∧ (pathsStage env db query pcs ctx tr).ctx.center = ctx.center
    ∧ (pathsStage env db query pcs ctx tr).ctx.background = ctx.background := by
  have hf := handlePathsOption_fields env ctx (queryGet query "path".toList)
  cases herr : (handlePathsOption env ctx (queryGet query "path".toList)).2.2 with
  | some e =>
    rw [pathsStage_rejected env db query pcs ctx tr e herr]
    exact hf
  | none =>
    rw [pathsStage_eq_renderStage env db query pcs ctx tr herr, renderStage_ctx]
    exact hf

theorem isPathStep_not_color {e : Event L} (h : e.isPathStep = true) :
    e.isColorStep = false := by
  cases e <;> simp_all [Event.isPathStep, Event.isColorStep]

theorem isAfterRender_not_color {e : Event L} (h : e.isAfterRender = true) :
    e.isColorStep = false := by
  cases e <;> simp_all [Event.isAfterRender, Event.isColorStep]

theorem pathsStage_trace (env : Env L) (db : DB L) (query : GoString → List GoString)
    (pcs : List GoString) (ctx : Context L) (tr : List (Event L)) :
    ∃ evs, (pathsStage env db query pcs ctx tr).trace = tr ++ evs
      ∧ ∀ e ∈ evs, e.isColorStep = false := by
  have hs := handlePathsOption_steps env ctx (queryGet query "path".toList)
  cases herr : (handlePathsOption env ctx (queryGet query "path".toList)).2.2 with
  | some e =>
    rw [pathsStage_rejected env db query pcs ctx tr e herr]
    refine ⟨[.queryGet "path".toList]
      ++ (handlePathsOption env ctx (queryGet query "path".toList)).2.1, by simp, ?_⟩
    intro e he
    simp only [List.mem_append, List.mem_singleton] at he
    rcases he with rfl | he
    · simp [Event.isColorStep]
    · exact isPathStep_not_color (hs e he)
  | none =>
    rw [pathsStage_eq_renderStage env db query pcs ctx tr herr]
    obtain ⟨evs2, h2, hall⟩ := renderStage_trace env db pcs
      (handlePathsOption env ctx (queryGet query "path".toList)).1
      (tr ++ [.queryGet "path".toList]
        ++ (handlePathsOption env ctx (queryGet query "path".toList)).2.1)
    refine ⟨[.queryGet "path".toList]
      ++ (handlePathsOption env ctx (queryGet query "path".toList)).2.1
      ++ Event.render :: evs2, ?_, ?_⟩
    · rw [h2]
      simp only [List.append_assoc]
    · intro e he
      simp only [List.mem_append, List.mem_singleton, List.mem_cons, List.not_mem_nil,
        or_false] at he
      rcases he with (rfl | he) | rfl | he
      · simp [Event.isColorStep]
      · exact isPathStep_not_color (hs e he)
      · simp [Event.isColorStep]
      · exact isAfterRender_not_color (hall e he)

/-! ### The background option -/

theorem handleBackgroundOption_empty (env : Env L) (ctx : Context L) :
    handleBackgroundOption env ctx [] = (ctx, [], none) := by
  simp [handleBackgroundOption]

theorem handleBackgroundOption_rejected (env : Env L) (ctx : Context L) (p : GoString)
    (e : L.Err) (hp : p ≠ []) (h : env.ParseColorString p = .error e) :
    handleBackgroundOption env ctx p = (ctx, [.parseColorString p], some e) := by
  simp [handleBackgroundOption, hp, h]

theorem handleBackgroundOption_accepted (env : Env L) (ctx : Context L) (p : GoString)
    (col : L.Color) (hp : p ≠ []) (h : env.ParseColorString p = .ok col) :
    handleBackgroundOption env ctx p =
      (ctx.SetBackground col, [.parseColorString p, .setBackground col], none) := by
  simp [handleBackgroundOption, hp, h]

theorem backgroundStage_empty (env : Env L) (db : DB L) (query : GoString → List GoString)
    (pcs : List GoString) (ctx : Context L) (tr : List (Event L))
    (h : queryGet query "background".toList = []) :
    backgroundStage env db query pcs ctx tr =
      pathsStage env db query pcs ctx (tr ++ [.queryGet "background".toList]) := by
  simp only [backgroundStage, h, handleBackgroundOption_empty, List.append_nil]

theorem backgroundStage_rejected (env : Env L) (db : DB L)
    (query : GoString → List GoString) (pcs : List GoString) (ctx : Context L)
    (tr : List (Event L)) (e : L.Err) (hp : queryGet query "background".toList ≠ [])
    (h : env.ParseColorString (queryGet query "background".toList) = .error e) :
    backgroundStage env db query pcs ctx tr =
      { status := StatusBadRequest,
        err := some (.cannotParseBackground (queryGet query "background".toList) e),
        ctx := ctx,
        trace := tr ++ [.queryGet "background".toList]
          ++ [.parseColorString (queryGet query "background".toList)] } := by
  simp only [backgroundStage, handleBackgroundOption_rejected env ctx _ e hp h]

theorem backgroundStage_accepted (env : Env L) (db : DB L)
    (query : GoString → List GoString) (pcs : List GoString) (ctx : Context L)
    (tr : List (Event L)) (col : L.Color) (hp : queryGet query "background".toList ≠ [])
    (h : env.ParseColorString (queryGet query "background".toList) = .ok col) :
    backgroundStage env db query pcs ctx tr =
      pathsStage env db query pcs (ctx.SetBackground col)
        (tr ++ [.queryGet "background".toList]
          ++ [.parseColorString (queryGet query "background".toList), .setBackground col]) := by
  simp only [backgroundStage, handleBackgroundOption_accepted env ctx _ col hp h]

/-- The three ways through the background option. -/
theorem backgroundStage_cases (env : Env L) (db : DB L) (query : GoString → List GoString)
    (pcs : List GoString) (ctx : Context L) (tr : List (Event L)) :
    (∃ e, backgroundStage env db query pcs ctx tr =
        { status := StatusBadRequest,
          err := some (.cannotParseBackground (queryGet query "background".toList) e),
          ctx := ctx,
          trace := tr ++ [.queryGet "background".toList]
            ++ [.parseColorString (queryGet query "background".toList)] })
    ∨ (∃ ctx1 evs, backgroundStage env db query pcs ctx tr =
          pathsStage env db query pcs ctx1 (tr ++ evs)
        ∧ ctx1.width = ctx.width ∧ ctx1.height = ctx.height ∧ ctx1.zoom = ctx.zoom
        ∧ ctx1.center = ctx.center) := by
  by_cases hp : queryGet query "background".toList = []
  · right
    exact ⟨ctx, [.queryGet "background".toList],
      backgroundStage_empty env db query pcs ctx tr hp, rfl, rfl, rfl, rfl⟩
  · cases h : env.ParseColorString (queryGet query "background".toList) with
    | error e =>
      left
      exact ⟨e, backgroundStage_rejected env db query pcs ctx tr e hp h⟩
    | ok col =>
      right
      refine ⟨ctx.SetBackground col, [.queryGet "background".toList]
        ++ [.parseColorString (queryGet query "background".toList), .setBackground col],
        ?_, rfl, rfl, rfl, rfl⟩
      rw [backgroundStage_accepted env db query pcs ctx tr col hp h]
      simp only [List.append_assoc]

theorem backgroundStage_fields (env : Env L) (db : DB L) (query : GoString → List GoString)
    (pcs : List GoString) (ctx : Context L) (tr : List (Event L)) :
    (backgroundStage env db query pcs ctx tr).ctx.width = ctx.width
    ∧ (backgroundStage env db query pcs ctx tr).ctx.height = ctx.height
    ∧ (backgroundStage env db query pcs ctx tr).ctx.zoom = ctx.zoom
    ∧ (backgroundStage env db query pcs ctx tr).ctx.center = ctx.center := by
  rcases backgroundStage_cases env db query pcs ctx tr with ⟨e, h⟩ | ⟨ctx1, evs, h, hw, hh, hz, hc⟩
  · rw [h]
    exact ⟨rfl, rfl, rfl, rfl⟩
  · rw [h]
    obtain ⟨pw, ph, pz, pc, _⟩ := pathsStage_fields env db query pcs ctx1 (tr ++ evs)
    exact ⟨pw.trans hw, ph.trans hh, pz.trans hz, pc.trans hc⟩

theorem backgroundStage_trace (env : Env L) (db : DB L) (query : GoString → List GoString)
    (pcs : List GoString) (ctx : Context L) (tr : List (Event L)) :
    ∃ evs, (backgroundStage env db query pcs ctx tr).trace = tr ++ evs := by
  rcases backgroundStage_cases env db query pcs ctx tr with ⟨e, h⟩ | ⟨ctx1, evs, h, _⟩
  · rw [h]
    exact ⟨_, List.append_assoc _ _ _⟩
  · rw [h]
    obtain ⟨evs2, h2, _⟩ := pathsStage_trace env db query pcs ctx1 (tr ++ evs)
    exact ⟨evs ++ evs2, by rw [h2, List.append_assoc]⟩

/-! ### The zoom segment -/

theorem zoomStage_rejected (env : Env L) (db : DB L) (query : GoString → List GoString)
    (pcs : List GoString) (ctx : Context L) (tr : List (Event L)) (e : L.Err)
    (h : env.Atoi (zoomSegment pcs) = .error e) :
    zoomStage env db query pcs ctx tr =
      { status := StatusBadRequest, err := some (.cannotParseZoom (zoomSegment pcs) e),
        ctx := ctx, trace := tr ++ [.atoi (zoomSegment pcs)] } := by
  unfold zoomSegment at h
  simp only [zoomStage, h, zoomSegment]

theorem zoomStage_accepted (env : Env L) (db : DB L) (query : GoString → List GoString)
    (pcs : List GoString) (ctx : Context L) (tr : List (Event L)) (v : Int)
    (h : env.Atoi (zoomSegment pcs) = .ok v) :
    zoomStage env db query pcs ctx tr =
      backgroundStage env db query pcs ((ctx.SetZoom v).SetCenter (centerOf env pcs))
        (tr ++ [.atoi (zoomSegment pcs), .setZoom v]
          ++ (parseCoordinate env (xSegment pcs) LogMsg.cannotParseX).2
          ++ (parseCoordinate env (ySegment pcs) LogMsg.cannotParseY).2
          ++ [.setCenter (centerOf env pcs)]) := by
  unfold zoomSegment at h
  simp only [zoomStage, h, centerStage, centerOf, parseCoordinate_value, xSegment, ySegment,
    zoomSegment]

theorem zoomStage_size (env : Env L) (db : DB L) (query : GoString → List GoString)
    (pcs : List GoString) (ctx : Context L) (tr : List (Event L)) :
    (zoomStage env db query pcs ctx tr).ctx.width = ctx.width
    ∧ (zoomStage env db query pcs ctx tr).ctx.height = ctx.height := by
  cases h : env.Atoi (zoomSegment pcs) with
  | error e =>
    rw [zoomStage_rejected env db query pcs ctx tr e h]
    exact ⟨rfl, rfl⟩
  | ok v =>
    rw [zoomStage_accepted env db query pcs ctx tr v h]
    obtain ⟨pw, ph, _⟩ := backgroundStage_fields env db query pcs
      ((ctx.SetZoom v).SetCenter (centerOf env pcs))
      (tr ++ [.atoi (zoomSegment pcs), .setZoom v]
          ++ (parseCoordinate env (xSegment pcs) LogMsg.cannotParseX).2
          ++ (parseCoordinate env (ySegment pcs) LogMsg.cannotParseY).2
          ++ [.setCenter (centerOf env pcs)])
    exact ⟨pw, ph⟩

theorem zoomStage_trace (env : Env L) (db : DB L) (query : GoString → List GoString)
    (pcs : List GoString) (ctx : Context L) (tr : List (Event L)) :
    ∃ evs, (zoomStage env db query pcs ctx tr).trace = tr ++ evs := by
  cases h : env.Atoi (zoomSegment pcs) with
  | error e =>
    rw [zoomStage_rejected env db query pcs ctx tr e h]
    exact ⟨_, rfl⟩
  | ok v =>
    rw [zoomStage_accepted env db query pcs ctx tr v h]
    obtain ⟨evs, he⟩ := backgroundStage_trace env db query pcs
      ((ctx.SetZoom v).SetCenter (centerOf env pcs))
      (tr ++ [.atoi (zoomSegment pcs), .setZoom v]
          ++ (parseCoordinate env (xSegment pcs) LogMsg.cannotParseX).2
          ++ (parseCoordinate env (ySegment pcs) LogMsg.cannotParseY).2
          ++ [.setCenter (centerOf env pcs)])
    rw [he]
    exact ⟨[.atoi (zoomSegment pcs), .setZoom v]
          ++ (parseCoordinate env (xSegment pcs) LogMsg.cannotParseX).2
          ++ (parseCoordinate env (ySegment pcs) LogMsg.cannotParseY).2
          ++ [.setCenter (centerOf env pcs)] ++ evs, by simp only [List.append_assoc]⟩

/-- The value kept for a dimension, by cases on its query parameter. -/
theorem parseDimension_value (env : Env L) (query : GoString → List GoString)
    (key : GoString) (dflt : Int) (m1 : LogMsg L) (m2 : GoString → L.Err → LogMsg L) :
    (query key = [] → (parseDimension env query key dflt m1 m2).1 = dflt)
    ∧ (queryGet query key = [] → (parseDimension env query key dflt m1 m2).1 = dflt)
    ∧ (∀ e, env.Atoi (queryGet query key) = .error e →
        (parseDimension env query key dflt m1 m2).1 = dflt)
    ∧ (∀ v, queryGet query key ≠ [] → env.Atoi (queryGet query key) = .ok v →
        (parseDimension env query key dflt m1 m2).1 = v) := by
  refine ⟨?_, ?_, ?_, ?_⟩
  · intro h
    simp [parseDimension, queryGet, h]
  · intro h
    simp [parseDimension, h]
  · intro e h
    by_cases hq : queryGet query key = []
    · simp [parseDimension, hq]
    · simp [parseDimension, hq, h]
  · intro v hq h
    simp [parseDimension, hq, h]

/-- A request that passes every check of its parameters reaches the render stage, and no
step of the render stage has been taken before. -/
theorem staticmap_eq_renderStage (env : Env L) (db : DB L) (c : Char) (rest : GoString)
    (query : GoString → List GoString) (v : Int)
    (hlen : 6 ≤ (stringsSplit rest).length) (h6 : (stringsSplit rest)[5]? ≠ some [])
    (hzoom : env.Atoi (zoomSegment (stringsSplit rest)) = .ok v)
    (hbg : queryGet query "background".toList = []
      ∨ ∃ col, env.ParseColorString (queryGet query "background".toList) = .ok col)
    (hpath : queryGet query "path".toList = []
      ∨ ∃ paths, env.ParsePathString (queryGet query "path".toList) = .ok paths) :
    ∃ ctxR trR, staticmap env db (c :: rest) query =
        some (renderStage env db (stringsSplit rest) ctxR trR)
      ∧ (∀ e ∈ trR, e.isRenderStep = false)
      ∧ ctxR.center = some (centerOf env (stringsSplit rest))
      ∧ Event.parseFloat (ySegment (stringsSplit rest)) ∈ trR := by
  rw [staticmap_eq_backgroundStage env db c rest query v hlen h6 hzoom]
  have hpre := centeredTrace_steps env query (stringsSplit rest) v
  have hy : Event.parseFloat (ySegment (stringsSplit rest))
      ∈ centeredTrace env query (stringsSplit rest) v := by
    unfold centeredTrace
    simp only [List.mem_append]
    exact Or.inl (Or.inr (parseCoordinate_call _ _ _))
  have key : ∀ (ctx : Context L) (tr : List (Event L)),
      (∀ e ∈ tr, e.isRenderStep = false) →
      ctx.center = some (centerOf env (stringsSplit rest)) →
      Event.parseFloat (ySegment (stringsSplit rest)) ∈ tr →
      ∃ ctxR trR, pathsStage env db query (stringsSplit rest) ctx tr =
          some (renderStage env db (stringsSplit rest) ctxR trR)
        ∧ (∀ e ∈ trR, e.isRenderStep = false)
        ∧ ctxR.center = some (centerOf env (stringsSplit rest))
        ∧ Event.parseFloat (ySegment (stringsSplit rest)) ∈ trR := by
    intro ctx tr htr hc hmem
    have hok := handlePathsOption_ok env ctx (queryGet query "path".toList) hpath
    refine ⟨_, _, congrArg some
      (pathsStage_eq_renderStage env db query (stringsSplit rest) ctx tr hok), ?_, ?_, ?_⟩
    · intro e he
      simp only [List.mem_append, List.mem_singleton] at he
      rcases he with (he | rfl) | he
      · exact htr e he
      · simp [Event.isRenderStep]
      · have := handlePathsOption_steps env ctx (queryGet query "path".toList) e he
        cases e <;> simp_all [Event.isPathStep, Event.isRenderStep]
    · rw [(handlePathsOption_fields env ctx (queryGet query "path".toList)).2.2.2.1]
      exact hc
    · simp only [List.mem_append]
      exact Or.inl (Or.inl hmem)
  by_cases hp : queryGet query "background".toList = []
  · rw [backgroundStage_empty env db query _ _ _ hp]
    have := key (centeredContext env db query (stringsSplit rest) v)
      (centeredTrace env query (stringsSplit rest) v ++ [.queryGet "background".toList])
      (by
        intro e he
        simp only [List.mem_append, List.mem_singleton] at he
        rcases he with he | rfl
        · exact (hpre e he).1
        · simp [Event.isRenderStep])
      rfl (by simp only [List.mem_append]; exact Or.inl hy)
    simpa using this
  · rcases hbg with hbg | ⟨col, hcol⟩
    · exact absurd hbg hp
    · rw [backgroundStage_accepted env db query _ _ _ col hp hcol]
      have := key ((centeredContext env db query (stringsSplit rest) v).SetBackground col)
        (centeredTrace env query (stringsSplit rest) v ++ [.queryGet "background".toList]
          ++ [.parseColorString (queryGet query "background".toList), .setBackground col])
        (by
          intro e he
          simp only [List.mem_append, List.mem_singleton, List.mem_cons, List.not_mem_nil,
            or_false] at he
          rcases he with (he | rfl) | rfl | rfl
          · exact (hpre e he).1
          · simp [Event.isRenderStep]
          · simp [Event.isRenderStep]
          · simp [Event.isRenderStep])
        rfl (by simp only [List.mem_append]; exact Or.inl (Or.inl hy))
      simpa using this

end HandlerLemmas

/-! ## Properties of the handler: the claims -/

section HandlerClaims

variable {L : Lib}

/-- C2: when the path, after its first byte, splits on `/` into fewer than 6 segments, or
its 6th segment is empty, the handler returns status 400 with the path-too-short error, and
it has then made no call besides creating the context and installing the fetcher: no read
of the query, no parse of a segment, no render. -/
theorem staticmap_path_too_short (env : Env L) (db : DB L) (c : Char) (rest : GoString)
    (query : GoString → List GoString)
    (h : (stringsSplit rest).length < 6 ∨ (stringsSplit rest)[5]? = some []) :
    ∃ r, staticmap env db (c :: rest) query = some r
      ∧ r.status = 400
      ∧ r.err = some HandlerError.pathTooShort
      ∧ r.trace = [Event.newContext, Event.setTileFetcher] := by
  have hs : staticmap env db (c :: rest) query =
      some { status := StatusBadRequest, err := some HandlerError.pathTooShort,
             ctx := env.NewContext.SetTileFetcher (Fetch db.ReadTile env.Decode),
             trace := [Event.newContext, Event.setTileFetcher] } := by
    simp only [staticmap, if_pos h]
  exact ⟨_, hs, rfl, rfl, rfl⟩

/-- C2, on a path of five segments and on a path whose 6th segment is empty. -/
theorem staticmap_path_too_short_witness :
    (∃ r, staticmap refEnv refDB ('/' :: "services/id/staticmap/3/1.5".toList) noQuery = some r
      ∧ r.status = 400
      ∧ r.err = some HandlerError.pathTooShort
      ∧ r.trace = [Event.newContext, Event.setTileFetcher])
    ∧ (∃ r, staticmap refEnv refDB ('/' :: "services/id/staticmap/3/1.5/".toList) noQuery
        = some r
      ∧ r.status = 400
      ∧ r.err = some HandlerError.pathTooShort
      ∧ r.trace = [Event.newContext, Event.setTileFetcher]) :=
  ⟨staticmap_path_too_short refEnv refDB '/' "services/id/staticmap/3/1.5".toList noQuery
      (Or.inl (by decide)),
   staticmap_path_too_short refEnv refDB '/' "services/id/staticmap/3/1.5/".toList noQuery
      (Or.inr (by decide))⟩

/-- C3: for a request whose path passes the length check, whatever its query is: when the
3rd-from-last segment does not parse as an integer the handler returns status 400 and the
renderer is not invoked; when it parses as `v`, the zoom set on the render context is `v`. -/
theorem staticmap_zoom_check (env : Env L) (db : DB L) (c : Char) (rest : GoString)
    (query : GoString → List GoString)
    (hlen : 6 ≤ (stringsSplit rest).length) (h6 : (stringsSplit rest)[5]? ≠ some []) :
    (∀ e, env.Atoi ((stringsSplit rest).getD ((stringsSplit rest).length - 3) []) = .error e →
      ∃ r, staticmap env db (c :: rest) query = some r
        ∧ r.status = 400
        ∧ r.err = some (HandlerError.cannotParseZoom
            ((stringsSplit rest).getD ((stringsSplit rest).length - 3) []) e)
        ∧ Event.render ∉ r.trace)
    ∧ (∀ v, env.Atoi ((stringsSplit rest).getD ((stringsSplit rest).length - 3) []) = .ok v →
      ∃ r, staticmap env db (c :: rest) query = some r
        ∧ r.ctx.zoom = some v
        ∧ Event.setZoom v ∈ r.trace) := by
  constructor
  · intro e he
    refine ⟨_, staticmap_eq_zoomStage env db c rest query hlen h6, ?_, ?_, ?_⟩
    · rw [zoomStage_rejected env db query _ _ _ e he]
      rfl
    · rw [zoomStage_rejected env db query _ _ _ e he]
      rfl
    · rw [zoomStage_rejected env db query _ _ _ e he]
      intro hmem
      simp only [List.mem_append, List.mem_singleton] at hmem
      rcases hmem with hmem | hmem
      · have := (sizedTrace_steps env query _ hmem).1
        simp [Event.isRenderStep] at this
      · cases hmem
  · intro v hv
    refine ⟨_, staticmap_eq_backgroundStage env db c rest query v hlen h6 hv, ?_, ?_⟩
    · rw [(backgroundStage_fields env db query _ _ _).2.2.1]
      rfl
    · obtain ⟨evs, he⟩ := backgroundStage_trace env db query (stringsSplit rest)
        (centeredContext env db query (stringsSplit rest) v)
        (centeredTrace env query (stringsSplit rest) v)
      rw [he]
      simp [centeredTrace]

/-- C3, on a zoom segment `abc` with a width, a height and a background in the query, and
on a zoom segment `3`. -/
theorem staticmap_zoom_check_witness :
    (∃ r, staticmap refEnv refDB ('/' :: "services/id/staticmap/abc/1.5/2.5".toList)
        (queryOf [("width".toList, "100".toList), ("background".toList, "#ff0000".toList)])
        = some r
      ∧ r.status = 400
      ∧ r.err = some (HandlerError.cannotParseZoom "abc".toList RefErr.malformed)
      ∧ Event.render ∉ r.trace)
    ∧ (∃ r, staticmap refEnv refDB ('/' :: "services/id/staticmap/3/1.5/2.5".toList) noQuery
        = some r
      ∧ r.ctx.zoom = some 3
      ∧ Event.setZoom 3 ∈ r.trace) :=
  ⟨(staticmap_zoom_check refEnv refDB '/' "services/id/staticmap/abc/1.5/2.5".toList
      (queryOf [("width".toList, "100".toList), ("background".toList, "#ff0000".toList)])
      (by decide) (by decide)).1 RefErr.malformed (by decide),
   (staticmap_zoom_check refEnv refDB '/' "services/id/staticmap/3/1.5/2.5".toList noQuery
      (by decide) (by decide)).2 3 (by decide)⟩

/-- C7: for a request whose path passes the length check, the width set on the render
context is 600 when the `width` parameter is absent, empty or does not parse as an integer,
and is `v` when it parses as `v`; the same holds for the height with 400; no error is
returned because of either: the handler goes on to the zoom segment with that size set.
With neither parameter given the size set is 600 by 400. -/
theorem staticmap_size (env : Env L) (db : DB L) (c : Char) (rest : GoString)
    (query : GoString → List GoString)
    (hlen : 6 ≤ (stringsSplit rest).length) (h6 : (stringsSplit rest)[5]? ≠ some []) :
    ∃ r w h, staticmap env db (c :: rest) query = some r
      ∧ r.ctx.width = w ∧ r.ctx.height = h
      ∧ Event.setSize w h ∈ r.trace
      ∧ (∃ ctx tr, ctx.width = w ∧ ctx.height = h
          ∧ r = zoomStage env db query (stringsSplit rest) ctx tr)
      ∧ (query "width".toList = [] → w = 600)
      ∧ (queryGet query "width".toList = [] → w = 600)
      ∧ (∀ e, env.Atoi (queryGet query "width".toList) = .error e → w = 600)
      ∧ (∀ v, queryGet query "width".toList ≠ [] →
          env.Atoi (queryGet query "width".toList) = .ok v → w = v)
      ∧ (query "height".toList = [] → h = 400)
      ∧ (queryGet query "height".toList = [] → h = 400)
      ∧ (∀ e, env.Atoi (queryGet query "height".toList) = .error e → h = 400)
      ∧ (∀ v, queryGet query "height".toList ≠ [] →
          env.Atoi (queryGet query "height".toList) = .ok v → h = v)
      ∧ (query "width".toList = [] → query "height".toList = [] →
          Event.setSize 600 400 ∈ r.trace ∧ r.ctx.width = 600 ∧ r.ctx.height = 400) := by
  have hw := parseDimension_value env query "width".toList DEFAULT_STATICMAP_WIDTH
    LogMsg.useDefaultWidth LogMsg.cannotParseWidth
  have hh := parseDimension_value env query "height".toList DEFAULT_STATICMAP_HEIGHT
    LogMsg.useDefaultHeight LogMsg.cannotParseHeight
  have hsz := zoomStage_size env db query (stringsSplit rest) (sizedContext env db query)
    (sizedTrace env query)
  have hmem : Event.setSize (widthOf env query).1 (heightOf env query).1
      ∈ (zoomStage env db query (stringsSplit rest) (sizedContext env db query)
          (sizedTrace env query)).trace := by
    obtain ⟨evs, he⟩ := zoomStage_trace env db query (stringsSplit rest)
      (sizedContext env db query) (sizedTrace env query)
    rw [he]
    simp [sizedTrace]
  refine ⟨_, (widthOf env query).1, (heightOf env query).1,
    staticmap_eq_zoomStage env db c rest query hlen h6, hsz.1, hsz.2, hmem,
    ⟨sizedContext env db query, sizedTrace env query, rfl, rfl, rfl⟩,
    hw.1, hw.2.1, hw.2.2.1, hw.2.2.2, hh.1, hh.2.1, hh.2.2.1, hh.2.2.2, ?_⟩
  intro h1 h2
  have e1 : (widthOf env query).1 = 600 := hw.1 h1
  have e2 : (heightOf env query).1 = 400 := hh.1 h2
  rw [e1, e2] at hmem
  exact ⟨hmem, hsz.1.trans e1, hsz.2.trans e2⟩

/-- C5: for a request that passes the length check and the zoom check: a non-empty
`background` parameter that the colour parser rejects gives status 400 without a render; one
that the parser accepts as `col` sets the background of the context to `col`, and the
setter comes before any render; an absent or empty parameter leaves the colour parser
unconsulted and the background of the context as it was created. -/
theorem staticmap_background (env : Env L) (db : DB L) (c : Char) (rest : GoString)
    (query : GoString → List GoString) (v : Int)
    (hlen : 6 ≤ (stringsSplit rest).length) (h6 : (stringsSplit rest)[5]? ≠ some [])
    (hzoom : env.Atoi ((stringsSplit rest).getD ((stringsSplit rest).length - 3) []) = .ok v) :
    (∀ e, queryGet query "background".toList ≠ [] →
      env.ParseColorString (queryGet query "background".toList) = .error e →
      ∃ r, staticmap env db (c :: rest) query = some r
        ∧ r.status = 400
        ∧ r.err = some (HandlerError.cannotParseBackground
            (queryGet query "background".toList) e)
        ∧ Event.render ∉ r.trace)
    ∧ (∀ col, queryGet query "background".toList ≠ [] →
      env.ParseColorString (queryGet query "background".toList) = .ok col →
      ∃ r, staticmap env db (c :: rest) query = some r
        ∧ r.ctx.background = some col
        ∧ ∃ before after, r.trace = before ++ Event.setBackground col :: after
            ∧ Event.render ∉ before)
    ∧ ((query "background".toList = [] ∨ queryGet query "background".toList = []) →
      ∃ r, staticmap env db (c :: rest) query = some r
        ∧ r.ctx.background = env.NewContext.background
        ∧ (∀ s, Event.parseColorString s ∉ r.trace)
        ∧ (∀ col, Event.setBackground col ∉ r.trace)) := by
  have hsm := staticmap_eq_backgroundStage env db c rest query v hlen h6 hzoom
  have hpre := centeredTrace_steps env query (stringsSplit rest) v
  refine ⟨?_, ?_, ?_⟩
  · intro e hp he
    refine ⟨_, hsm, ?_, ?_, ?_⟩
    · rw [backgroundStage_rejected env db query _ _ _ e hp he]
      rfl
    · rw [backgroundStage_rejected env db query _ _ _ e hp he]
    · rw [backgroundStage_rejected env db query _ _ _ e hp he]
      intro hmem
      simp only [List.mem_append, List.mem_singleton] at hmem
      rcases hmem with (hmem | hmem) | hmem
      · have := (hpre _ hmem).1
        simp [Event.isRenderStep] at this
      · cases hmem
      · cases hmem
  · intro col hp hc
    refine ⟨_, hsm, ?_, ?_⟩
    · rw [backgroundStage_accepted env db query _ _ _ col hp hc,
        (pathsStage_fields env db query _ _ _).2.2.2.2]
      rfl
    · rw [backgroundStage_accepted env db query _ _ _ col hp hc]
      obtain ⟨evs, he, _⟩ := pathsStage_trace env db query (stringsSplit rest)
        ((centeredContext env db query (stringsSplit rest) v).SetBackground col)
        (centeredTrace env query (stringsSplit rest) v ++ [.queryGet "background".toList]
          ++ [.parseColorString (queryGet query "background".toList), .setBackground col])
      refine ⟨centeredTrace env query (stringsSplit rest) v
        ++ [.queryGet "background".toList]
        ++ [.parseColorString (queryGet query "background".toList)], evs, ?_, ?_⟩
      · rw [he]
        simp only [List.append_assoc, List.cons_append, List.nil_append]
      · intro hmem
        simp only [List.mem_append, List.mem_singleton] at hmem
        rcases hmem with (hmem | hmem) | hmem
        · have := (hpre _ hmem).1
          simp [Event.isRenderStep] at this
        · cases hmem
        · cases hmem
  · intro habs
    have hp : queryGet query "background".toList = [] := by
      rcases habs with h | h
      · unfold queryGet
        rw [h]
      · exact h
    obtain ⟨evs, he, hall⟩ := pathsStage_trace env db query (stringsSplit rest)
      (centeredContext env db query (stringsSplit rest) v)
      (centeredTrace env query (stringsSplit rest) v ++ [.queryGet "background".toList])
    have hno : ∀ e ∈ (backgroundStage env db query (stringsSplit rest)
        (centeredContext env db query (stringsSplit rest) v)
        (centeredTrace env query (stringsSplit rest) v)).trace, e.isColorStep = false := by
      rw [backgroundStage_empty env db query _ _ _ hp, he]
      intro e hmem
      simp only [List.mem_append, List.mem_singleton] at hmem
      rcases hmem with (hmem | rfl) | hmem
      · exact (hpre e hmem).2.1
      · simp [Event.isColorStep]
      · exact hall e hmem
    refine ⟨_, hsm, ?_, ?_, ?_⟩
    · rw [backgroundStage_empty env db query _ _ _ hp,
        (pathsStage_fields env db query _ _ _).2.2.2.2]
      rfl
    · intro s hmem
      have := hno _ hmem
      simp [Event.isColorStep] at this
    · intro col hmem
      have := hno _ hmem
      simp [Event.isColorStep] at this

theorem coordinateOf_value (env : Env L) (raw : GoString) :
    (∀ x, env.ParseFloat raw = .ok x → coordinateOf env raw = x)
    ∧ (∀ e, env.ParseFloat raw = .error e → coordinateOf env raw = L.zero) := by
  constructor
  · intro x h
    simp [coordinateOf, h]
  · intro e h
    simp [coordinateOf, h]

/-- C6, as stated, fails on the path `/services/id/staticmap/3/10/20`: the segments parse
as x = 10 and y = 20, and the centre set is not the point of longitude 10 and latitude 20
(it is the point of latitude 10 and longitude 20). -/
theorem center_longitude_is_not_x :
    refParseFloat "10".toList = .ok ⟨10, 0⟩
    ∧ refParseFloat "20".toList = .ok ⟨20, 0⟩
    ∧ ¬ ∃ r, staticmap refEnv refDB ('/' :: "services/id/staticmap/3/10/20".toList) noQuery
          = some r
        ∧ r.ctx.center = some { lat := ⟨20, 0⟩, lng := ⟨10, 0⟩ } := by
  refine ⟨by decide, by decide, ?_⟩
  rintro ⟨r, hr, hc⟩
  have h : (staticmap refEnv refDB ('/' :: "services/id/staticmap/3/10/20".toList)
      noQuery).map (fun r => r.ctx.center)
      = some (some { lat := ⟨10, 0⟩, lng := ⟨20, 0⟩ }) := by decide
  rw [hr] at h
  simp only [Option.map_some'] at h
  rw [hc] at h
  revert h
  decide

/-- C6, amended: for a request that passes the length check and the zoom check, the centre
set on the render context has latitude `x` and longitude `y`, where `x` is the float parsed
from the 2nd-from-last segment (the zero value when it does not parse) and `y` the float
parsed from the last segment (the zero value when it does not parse); a parse failure of
either does not make the request fail: the handler goes on to the background option. -/
theorem staticmap_center (env : Env L) (db : DB L) (c : Char) (rest : GoString)
    (query : GoString → List GoString) (v : Int)
    (hlen : 6 ≤ (stringsSplit rest).length) (h6 : (stringsSplit rest)[5]? ≠ some [])
    (hzoom : env.Atoi ((stringsSplit rest).getD ((stringsSplit rest).length - 3) []) = .ok v) :
    ∃ r x y, staticmap env db (c :: rest) query = some r
      ∧ r.ctx.center = some { lat := x, lng := y }
      ∧ Event.setCenter { lat := x, lng := y } ∈ r.trace
      ∧ (∀ a, env.ParseFloat ((stringsSplit rest).getD ((stringsSplit rest).length - 2) [])
            = .ok a → x = a)
      ∧ (∀ e, env.ParseFloat ((stringsSplit rest).getD ((stringsSplit rest).length - 2) [])
            = .error e → x = L.zero)
      ∧ (∀ a, env.ParseFloat ((stringsSplit rest).getD ((stringsSplit rest).length - 1) [])
            = .ok a → y = a)
      ∧ (∀ e, env.ParseFloat ((stringsSplit rest).getD ((stringsSplit rest).length - 1) [])
            = .error e → y = L.zero)
      ∧ (∃ ctx tr, ctx.center = some { lat := x, lng := y }
          ∧ r = backgroundStage env db query (stringsSplit rest) ctx tr) := by
  have hsm := staticmap_eq_backgroundStage env db c rest query v hlen h6 hzoom
  have hx := coordinateOf_value env (xSegment (stringsSplit rest))
  have hy := coordinateOf_value env (ySegment (stringsSplit rest))
  refine ⟨_, coordinateOf env (xSegment (stringsSplit rest)),
    coordinateOf env (ySegment (stringsSplit rest)), hsm, ?_, ?_, hx.1, hx.2, hy.1, hy.2,
    ⟨centeredContext env db query (stringsSplit rest) v,
      centeredTrace env query (stringsSplit rest) v, rfl, rfl⟩⟩
  · rw [(backgroundStage_fields env db query _ _ _).2.2.2]
    rfl
  · obtain ⟨evs, he⟩ := backgroundStage_trace env db query (stringsSplit rest)
      (centeredContext env db query (stringsSplit rest) v)
      (centeredTrace env query (stringsSplit rest) v)
    rw [he]
    simp [centeredTrace, centerOf, LatLngFromDegrees]

/-- C6, amended, on the path `/services/id/staticmap/3/10/oops`: x parses as 10, y does not
parse; the centre has latitude 10 and longitude 0. -/
theorem staticmap_center_witness :
    ∃ r, staticmap refEnv refDB ('/' :: "services/id/staticmap/3/10/oops".toList) noQuery
        = some r
      ∧ r.ctx.center = some { lat := ⟨10, 0⟩, lng := ⟨0, 0⟩ } := by
  obtain ⟨r, x, y, hs, hc, _, hx, _, _, hy, _⟩ :=
    staticmap_center refEnv refDB '/' "services/id/staticmap/3/10/oops".toList noQuery 3
      (by decide) (by decide) (by decide)
  have ex := hx ⟨10, 0⟩ (by decide)
  have ey := hy RefErr.malformed (by decide)
  subst ex
  subst ey
  exact ⟨r, hs, hc⟩

/-- C7, on a request with `width=abc` and no height: the size set is 600 by 400. -/
theorem staticmap_size_witness :
    ∃ r, staticmap refEnv refDB ('/' :: "services/id/staticmap/3/1.5/2.5".toList)
        (queryOf [("width".toList, "abc".toList)]) = some r
      ∧ r.ctx.width = 600 ∧ r.ctx.height = 400 := by
  obtain ⟨r, w, h, hs, hw, hh, _, _, _, _, hwe, _, hh0, _⟩ :=
    staticmap_size refEnv refDB '/' "services/id/staticmap/3/1.5/2.5".toList
      (queryOf [("width".toList, "abc".toList)]) (by decide) (by decide)
  exact ⟨r, hs, hw.trans (hwe RefErr.malformed (by decide)), hh.trans (hh0 (by decide))⟩

/-- C5, on the backgrounds `not-a-color` and `#ff0000`, and on a request without one. -/
theorem staticmap_background_witness :
    (∃ r, staticmap refEnv refDB ('/' :: "services/id/staticmap/3/1.5/2.5".toList)
        (queryOf [("background".toList, "not-a-color".toList)]) = some r
      ∧ r.status = 400 ∧ Event.render ∉ r.trace)
    ∧ (∃ r, staticmap refEnv refDB ('/' :: "services/id/staticmap/3/1.5/2.5".toList)
        (queryOf [("background".toList, "#ff0000".toList)]) = some r
      ∧ r.ctx.background = some ⟨255, 0, 0⟩)
    ∧ (∃ r, staticmap refEnv refDB ('/' :: "services/id/staticmap/3/1.5/2.5".toList) noQuery
        = some r
      ∧ r.ctx.background = none ∧ ∀ s, Event.parseColorString s ∉ r.trace) := by
  refine ⟨?_, ?_, ?_⟩
  · obtain ⟨r, hs, h400, _, hr⟩ :=
      (staticmap_background refEnv refDB '/' "services/id/staticmap/3/1.5/2.5".toList
        (queryOf [("background".toList, "not-a-color".toList)]) 3
        (by decide) (by decide) (by decide)).1 RefErr.malformed (by decide) (by decide)
    exact ⟨r, hs, h400, hr⟩
  · obtain ⟨r, hs, hb, _⟩ :=
      (staticmap_background refEnv refDB '/' "services/id/staticmap/3/1.5/2.5".toList
        (queryOf [("background".toList, "#ff0000".toList)]) 3
        (by decide) (by decide) (by decide)).2.1 ⟨255, 0, 0⟩ (by decide) (by decide)
    exact ⟨r, hs, hb⟩
  · obtain ⟨r, hs, hb, hp, _⟩ :=
      (staticmap_background refEnv refDB '/' "services/id/staticmap/3/1.5/2.5".toList
        noQuery 3 (by decide) (by decide) (by decide)).2.2 (Or.inl (by decide))
    exact ⟨r, hs, hb, hp⟩

theorem not_mem_of_isRenderStep_false {tr : List (Event L)} (e : Event L)
    (h : ∀ a ∈ tr, a.isRenderStep = false) (he : e.isRenderStep = true) : e ∉ tr := by
  intro hmem
  have := h e hmem
  rw [he] at this
  cases this

/-- C8: for a request that passes every check of its parameters, the renderer is invoked
exactly once, on the context the handler returns with, and the answer is decided by the
outcomes of the render and of the encoding: a render error gives status 500 with an error
and nothing encoded; no error and no image gives the status and the error of the not-found
responder for the tile format of the store, with nothing encoded; an image whose encoding
fails gives status 500 with an error; an image whose encoding succeeds gives status 200
without error. -/
theorem staticmap_render_outcomes (env : Env L) (db : DB L) (c : Char) (rest : GoString)
    (query : GoString → List GoString) (v : Int)
    (hlen : 6 ≤ (stringsSplit rest).length) (h6 : (stringsSplit rest)[5]? ≠ some [])
    (hzoom : env.Atoi ((stringsSplit rest).getD ((stringsSplit rest).length - 3) []) = .ok v)
    (hbg : queryGet query "background".toList = []
      ∨ ∃ col, env.ParseColorString (queryGet query "background".toList) = .ok col)
    (hpath : queryGet query "path".toList = []
      ∨ ∃ paths, env.ParsePathString (queryGet query "path".toList) = .ok paths) :
    ∃ r, staticmap env db (c :: rest) query = some r
      ∧ (∃ before after, r.trace = before ++ Event.render :: after
          ∧ Event.render ∉ before ∧ Event.render ∉ after)
      ∧ (∀ img e, env.Render r.ctx = (img, some e) →
          r.status = 500 ∧ (∃ err, r.err = some err) ∧ ∀ i, Event.pngEncode i ∉ r.trace)
      ∧ (env.Render r.ctx = (none, none) →
          r.status = (env.tileNotFoundHandler db.TileFormat).1
          ∧ r.err = (env.tileNotFoundHandler db.TileFormat).2.map HandlerError.fromResponder
          ∧ Event.notFoundResponder db.TileFormat ∈ r.trace
          ∧ ∀ i, Event.pngEncode i ∉ r.trace)
      ∧ (∀ img e, env.Render r.ctx = (some img, none) → env.pngEncode img = some e →
          r.status = 500 ∧ r.err = some (HandlerError.cannotWriteImage e))
      ∧ (∀ img, env.Render r.ctx = (some img, none) → env.pngEncode img = none →
          r.status = 200 ∧ r.err = none) := by
  obtain ⟨ctxR, trR, hsm, hpre, _, _⟩ :=
    staticmap_eq_renderStage env db c rest query v hlen h6 hzoom hbg hpath
  have hctx := renderStage_ctx env db (stringsSplit rest) ctxR trR
  refine ⟨_, hsm, ?_, ?_, ?_, ?_, ?_⟩
  · obtain ⟨evs, he, hall⟩ := renderStage_trace env db (stringsSplit rest) ctxR trR
    refine ⟨trR, evs, he, not_mem_of_isRenderStep_false Event.render hpre rfl, ?_⟩
    intro hmem
    exact isAfterRender_ne_render (hall _ hmem) rfl
  · intro img e hR
    rw [hctx] at hR
    rw [renderStage_render_error env db _ ctxR trR img e hR]
    refine ⟨rfl, ⟨_, rfl⟩, ?_⟩
    intro i hmem
    simp only [List.mem_append, List.mem_singleton] at hmem
    rcases hmem with hmem | hmem
    · exact not_mem_of_isRenderStep_false (Event.pngEncode i) hpre rfl hmem
    · cases hmem
  · intro hR
    rw [hctx] at hR
    rw [renderStage_no_image env db _ ctxR trR hR]
    refine ⟨rfl, rfl, by simp, ?_⟩
    intro i hmem
    simp only [List.mem_append, List.mem_cons, List.mem_singleton, List.not_mem_nil,
      or_false] at hmem
    rcases hmem with hmem | hmem | hmem
    · exact not_mem_of_isRenderStep_false (Event.pngEncode i) hpre rfl hmem
    · cases hmem
    · cases hmem
  · intro img e hR hE
    rw [hctx] at hR
    rw [renderStage_encode_error env db _ ctxR trR img e hR hE]
    exact ⟨rfl, rfl⟩
  · intro img hR hE
    rw [hctx] at hR
    rw [renderStage_encoded env db _ ctxR trR img hR hE]
    exact ⟨rfl, rfl⟩

/-- C8, on a request without query on the concrete collaborators: the render gives an
image of 600 by 400, the encoding succeeds, the answer is 200 without error. -/
theorem staticmap_render_outcomes_witness :
    ∃ r, staticmap refEnv refDB ('/' :: "services/id/staticmap/3/1.5/2.5".toList) noQuery
        = some r
      ∧ refEnv.Render r.ctx = (some (600, 400), none)
      ∧ r.status = 200 ∧ r.err = none := by
  obtain ⟨r, hs, _, _, _, _, hok⟩ :=
    staticmap_render_outcomes refEnv refDB '/' "services/id/staticmap/3/1.5/2.5".toList
      noQuery 3 (by decide) (by decide) (by decide) (Or.inl (by decide)) (Or.inl (by decide))
  have hR : refEnv.Render r.ctx = (some (600, 400), none) := by
    have h : (staticmap refEnv refDB ('/' :: "services/id/staticmap/3/1.5/2.5".toList)
        noQuery).map (fun r => refEnv.Render r.ctx) = some (some (600, 400), none) := by
      decide
    rw [hs] at h
    simpa using h
  exact ⟨r, hs, hR, hok (600, 400) hR rfl⟩

/-- C10: the final segment reaches the float parser whole, extension included. For a
request that passes every other check and whose final segment is a stem followed by a point
and an extension, when the float parser rejects that segment the request still reaches the
render, and the coordinate taken from the final segment is the zero value, whatever the
stem is. -/
theorem staticmap_extension_kept (env : Env L) (db : DB L) (c : Char) (rest : GoString)
    (query : GoString → List GoString) (v : Int) (stem ext : GoString) (e : L.Err)
    (hlen : 6 ≤ (stringsSplit rest).length) (h6 : (stringsSplit rest)[5]? ≠ some [])
    (hzoom : env.Atoi ((stringsSplit rest).getD ((stringsSplit rest).length - 3) []) = .ok v)
    (hbg : queryGet query "background".toList = []
      ∨ ∃ col, env.ParseColorString (queryGet query "background".toList) = .ok col)
    (hpath : queryGet query "path".toList = []
      ∨ ∃ paths, env.ParsePathString (queryGet query "path".toList) = .ok paths)
    (hshape : (stringsSplit rest).getD ((stringsSplit rest).length - 1) []
      = stem ++ '.' :: ext)
    (hfail : env.ParseFloat (stem ++ '.' :: ext) = .error e) :
    ∃ r, staticmap env db (c :: rest) query = some r
      ∧ Event.parseFloat (stem ++ '.' :: ext) ∈ r.trace
      ∧ Event.render ∈ r.trace
      ∧ ∃ x, r.ctx.center = some (LatLngFromDegrees x L.zero) := by
  obtain ⟨ctxR, trR, hsm, _, hc, hy⟩ :=
    staticmap_eq_renderStage env db c rest query v hlen h6 hzoom hbg hpath
  have hys : ySegment (stringsSplit rest) = stem ++ '.' :: ext := hshape
  obtain ⟨evs, he, _⟩ := renderStage_trace env db (stringsSplit rest) ctxR trR
  refine ⟨_, hsm, ?_, ?_, coordinateOf env (xSegment (stringsSplit rest)), ?_⟩
  · rw [he, ← hys]
    exact List.mem_append_left _ hy
  · rw [he]
    simp
  · rw [renderStage_ctx, hc, centerOf, hys, (coordinateOf_value env _).2 e hfail]

/-- C10, on the path `/services/id/staticmap/3/1.5/2.35.png`: the stem `2.35` parses as
the decimal 2.35, the segment `2.35.png` does not, and the centre has longitude 0. -/
theorem staticmap_extension_kept_witness :
    refParseFloat "2.35".toList = .ok ⟨235, 2⟩
    ∧ ∃ r, staticmap refEnv refDB ('/' :: "services/id/staticmap/3/1.5/2.35.png".toList)
        noQuery = some r
      ∧ Event.parseFloat "2.35.png".toList ∈ r.trace
      ∧ Event.render ∈ r.trace
      ∧ ∃ x, r.ctx.center = some { lat := x, lng := ⟨0, 0⟩ } :=
  ⟨by decide,
   staticmap_extension_kept refEnv refDB '/' "services/id/staticmap/3/1.5/2.35.png".toList
    noQuery 3 "2.35".toList "png".toList RefErr.malformed (by decide) (by decide) (by decide)
    (Or.inl (by decide)) (Or.inl (by decide)) (by decide) (by decide)⟩

end HandlerClaims

end Staticmap
